import Mathlib

/-!
Verification of the LLM-response ingestion pipeline of the lethal-markets
repository: a shallow embedding, in Lean, of the response sanitizer, the
schema coercion step, the HTTP error paths, the per-service result caches,
the request-coalescing behaviour, the static fallback datasets and the
data validator, together with theorems settling the specification claims
about them.

Strings are embedded as `List Char`.  JavaScript numbers are embedded as
exact rationals (`ℚ`); `NaN`, `null` and `undefined` are distinguished
constructors of the `JSVal` type used for untyped (pre-coercion) values.
-/

namespace LethalMarkets

/-! ## JavaScript string primitives

Models of the platform string operations used by the source
(`String.prototype.trim`, `indexOf`, `lastIndexOf`, `substring`,
and global regex replacement of fence markers by the empty string). -/

/-- Model of the JavaScript `\s` character class (ASCII part: space, tab,
newline, carriage return, vertical tab, form feed), as used both by
`String.prototype.trim` and by the `\s*` in the fence-stripping regexes. -/
def isJsWs (c : Char) : Bool :=
  c = ' ' || c = '\t' || c = '\n' || c = '\r' || c = '\x0b' || c = '\x0c'

/-- Model of JavaScript `String.prototype.trim`. -/
def jsTrim (s : List Char) : List Char :=
  ((s.dropWhile isJsWs).reverse.dropWhile isJsWs).reverse

/-- One pass of a JavaScript global replace-by-empty of the pattern
`p :: ps` followed by `\s*` (when `ws = true`, the server's
`/```json\s*/g` and `/```\s*/g`) or followed by `\n?` (when `ws = false`,
the frontend's `/```json\n?/g` and `/```\n?/g`).  The regex engine scans
left to right; at a match it consumes the pattern and its whitespace
suffix and resumes after it, otherwise it advances one character.
The `fuel` argument is an evaluation device only: it starts at the length
of the list and stays `≥` the length of the remaining list at every
recursive call, so the `0` branch is reached only on the empty list. -/
def stripPatAux (p : Char) (ps : List Char) (ws : Bool) : Nat → List Char → List Char
  | 0, s => s
  | fuel + 1, s =>
    match s with
    | [] => []
    | c :: cs =>
      if c = p ∧ ps.isPrefixOf cs then
        let rest := cs.drop ps.length
        let rest := if ws then rest.dropWhile isJsWs
                    else if rest.head? = some '\n' then rest.tail else rest
        stripPatAux p ps ws fuel rest
      else c :: stripPatAux p ps ws fuel cs

/-- Global replace-by-empty of the non-empty pattern `pat` (plus `\s*`
when `ws = true`, plus `\n?` when `ws = false`), as performed by the two
`.replace(..., '')` calls of each `cleanJsonResponse` variant. -/
def stripAll (pat : String) (ws : Bool) (s : List Char) : List Char :=
  match pat.toList with
  | [] => s
  | p :: ps => stripPatAux p ps ws s.length s

/-- The character `{`. -/
def braceOpen : Char := '{'

/-- The character `}`. -/
def braceClose : Char := '}'

/-- Index of the first occurrence of a character, if any. -/
def firstIdx (ch : Char) : List Char → Option ℕ
  | [] => none
  | c :: cs => if c = ch then some 0 else (firstIdx ch cs).map (· + 1)

/-- Index of the last occurrence of a character, if any. -/
def lastIdx (ch : Char) : List Char → Option ℕ
  | [] => none
  | c :: cs =>
    match lastIdx ch cs with
    | some i => some (i + 1)
    | none => if c = ch then some 0 else none

/-- Model of JavaScript `String.prototype.indexOf` for a single
character: index of the first occurrence, `-1` when absent. -/
def jsIndexOf (s : List Char) (c : Char) : Int :=
  match firstIdx c s with
  | some i => (i : Int)
  | none => -1

/-- Model of JavaScript `String.prototype.lastIndexOf` for a single
character: index of the last occurrence, `-1` when absent. -/
def jsLastIndexOf (s : List Char) (c : Char) : Int :=
  match lastIdx c s with
  | some i => (i : Int)
  | none => -1

/-- Model of JavaScript `String.prototype.substring(a, b)` on the index
ranges the source uses (`0 ≤ a ≤ b ≤ length`). -/
def jsSubstring (s : List Char) (a b : Int) : List Char :=
  (s.drop a.toNat).take (b.toNat - a.toNat)

/-! ## ResponseSanitizer

The two `cleanJsonResponse` variants, embedded from
`server/index.js` (lines 136–151) and
`src/services/gptCrisisService.ts` (lines 277–294). -/

/-- The first phase of the server's `cleanJsonResponse`: trim, then
strip `/```json\s*/g`, then strip `/```\s*/g`. -/
def fenceStrippedServer (response : List Char) : List Char :=
  stripAll "```" true (stripAll "```json" true (jsTrim response))

/-- The first phase of the frontend's `cleanJsonResponse`: strip
`/```json\n?/g`, then strip `/```\n?/g` (no trim). -/
def fenceStrippedFront (response : List Char) : List Char :=
  stripAll "```" false (stripAll "```json" false response)

/-- `cleanJsonResponse` from `server/index.js`: trim, strip
`/```json\s*/g` then `/```\s*/g`, then slice from the first `{` to the
last `}` inclusive when `jsonStart !== -1 && jsonEnd > jsonStart`
(`jsonEnd` being `lastIndexOf('}') + 1`).  Note: no final trim. -/
def cleanJsonResponseServer (response : List Char) : List Char :=
  let cleaned := fenceStrippedServer response
  let jsonStart : Int := jsIndexOf cleaned braceOpen
  let jsonEnd : Int := jsLastIndexOf cleaned braceClose + 1
  if jsonStart ≠ -1 ∧ jsonEnd > jsonStart then
    jsSubstring cleaned jsonStart jsonEnd
  else
    cleaned

/-- `cleanJsonResponse` from `gptCrisisService.ts`: strip
`/```json\n?/g` then `/```\n?/g`; drop the text before the first `{`
when `firstBrace > 0`; drop the text after the last `}` when
`lastBrace > 0 && lastBrace < length - 1`; return the trimmed result. -/
def cleanJsonResponseFront (response : List Char) : List Char :=
  let cleaned := fenceStrippedFront response
  let firstBrace : Int := jsIndexOf cleaned braceOpen
  let cleaned := if firstBrace > 0 then cleaned.drop firstBrace.toNat else cleaned
  let lastBrace : Int := jsLastIndexOf cleaned braceClose
  let cleaned :=
    if lastBrace > 0 ∧ lastBrace < (cleaned.length : Int) - 1 then
      cleaned.take (lastBrace.toNat + 1)
    else cleaned
  jsTrim cleaned

/-! ## JSON validity

Modelled from the spec: the SchemaCoercer performs a "strict JSON parse"
of the sanitized text via the platform `JSON.parse`, which is not part of
the repository's own sources.  `jsonParseOk` decides whether a string is
accepted by the JSON grammar (RFC 8259): a single value surrounded by
optional JSON whitespace. -/

/-- JSON insignificant whitespace: space, tab, line feed, carriage return. -/
def isJsonWs (c : Char) : Bool :=
  c = ' ' || c = '\t' || c = '\n' || c = '\r'

/-- Skip JSON whitespace. -/
def skipJsonWs (s : List Char) : List Char := s.dropWhile isJsonWs

/-- Decimal digit test. -/
def isDigitCh (c : Char) : Bool := '0' ≤ c ∧ c ≤ '9'

/-- Hexadecimal digit test (for `\uXXXX` escapes). -/
def isHexCh (c : Char) : Bool :=
  isDigitCh c || ('a' ≤ c ∧ c ≤ 'f') || ('A' ≤ c ∧ c ≤ 'F')

/-- Consume the remainder of a JSON string literal (the opening quote is
already consumed); returns the rest on success. -/
def jsonStringRest : List Char → Option (List Char)
  | [] => none
  | c :: cs =>
    if c = '"' then some cs
    else if c = '\\' then
      match cs with
      | [] => none
      | e :: cs2 =>
        if e = '"' || e = '\\' || e = '/' || e = 'b' || e = 'f' ||
            e = 'n' || e = 'r' || e = 't' then jsonStringRest cs2
        else if e = 'u' then
          match cs2 with
          | h1 :: h2 :: h3 :: h4 :: cs3 =>
            if isHexCh h1 && isHexCh h2 && isHexCh h3 && isHexCh h4 then
              jsonStringRest cs3
            else none
          | _ => none
        else none
    else if c.toNat < 32 then none
    else jsonStringRest cs

/-- Consume one or more decimal digits; returns the rest on success. -/
def jsonDigits1 (s : List Char) : Option (List Char) :=
  let rest := s.dropWhile isDigitCh
  if rest.length = s.length then none else some rest

/-- Consume a JSON number (`-? (0 | [1-9][0-9]*) frac? exp?`); returns
the rest on success. -/
def jsonNumber (s : List Char) : Option (List Char) :=
  let s1 := match s with
    | '-' :: r => r
    | r => r
  match s1 with
  | [] => none
  | c :: r =>
    if c = '0' ∨ (isDigitCh c ∧ c ≠ '0') then
      let afterInt := if c = '0' then r else r.dropWhile isDigitCh
      let afterFrac := match afterInt with
        | '.' :: r2 =>
          match jsonDigits1 r2 with
          | some r3 => r3
          | none => afterInt
        | _ => afterInt
      let afterExp := match afterFrac with
        | e :: r2 =>
          if e = 'e' ∨ e = 'E' then
            let r3 := match r2 with
              | '+' :: r4 => r4
              | '-' :: r4 => r4
              | r4 => r4
            match jsonDigits1 r3 with
            | some r5 => r5
            | none => afterFrac
          else afterFrac
        | [] => afterFrac
      some afterExp
    else none

mutual

/-- Consume one JSON value (leading whitespace already skipped).  `fuel`
is an evaluation device: every recursive call follows at least one
consumed character every two fuel decrements, so a fuel of
`2 * length + 2` never runs out on accepted input. -/
def jsonValue : Nat → List Char → Option (List Char)
  | 0, _ => none
  | fuel + 1, s =>
    match s with
    | [] => none
    | c :: rest =>
      if c = braceOpen then
        match skipJsonWs rest with
        | [] => none
        | c2 :: r2 =>
          if c2 = braceClose then some r2
          else jsonMembers fuel (c2 :: r2)
      else if c = '[' then
        match skipJsonWs rest with
        | ']' :: r2 => some r2
        | r => jsonElements fuel r
      else if c = '"' then jsonStringRest rest
      else if c = 't' then
        if rest.take 3 = ['r', 'u', 'e'] then some (rest.drop 3) else none
      else if c = 'f' then
        if rest.take 4 = ['a', 'l', 's', 'e'] then some (rest.drop 4) else none
      else if c = 'n' then
        if rest.take 3 = ['u', 'l', 'l'] then some (rest.drop 3) else none
      else jsonNumber (c :: rest)

/-- Consume the members of a JSON object after `{` (at least one member;
the empty object is handled in `jsonValue`). -/
def jsonMembers : Nat → List Char → Option (List Char)
  | 0, _ => none
  | fuel + 1, s =>
    match s with
    | '"' :: rest =>
      match jsonStringRest rest with
      | none => none
      | some r1 =>
        match skipJsonWs r1 with
        | ':' :: r2 =>
          match jsonValue fuel (skipJsonWs r2) with
          | none => none
          | some r3 =>
            match skipJsonWs r3 with
            | ',' :: r4 =>
              match skipJsonWs r4 with
              | '"' :: r5 => jsonMembers fuel ('"' :: r5)
              | _ => none
            | c :: r4 => if c = braceClose then some r4 else none
            | [] => none
        | _ => none
    | _ => none

/-- Consume the elements of a JSON array after `[` (at least one
element; the empty array is handled in `jsonValue`). -/
def jsonElements : Nat → List Char → Option (List Char)
  | 0, _ => none
  | fuel + 1, s =>
    match jsonValue fuel s with
    | none => none
    | some r1 =>
      match skipJsonWs r1 with
      | ',' :: r2 => jsonElements fuel (skipJsonWs r2)
      | ']' :: r2 => some r2
      | _ => none

end

/-- Whether a string is accepted by `JSON.parse`: one JSON value with
optional surrounding whitespace and nothing else. -/
def jsonParseOk (s : List Char) : Bool :=
  match jsonValue (2 * s.length + 2) (skipJsonWs s) with
  | some rest => skipJsonWs rest = []
  | none => false

/-! ## JavaScript values and the SchemaCoercer

`JSVal` embeds the JavaScript values a parsed-JSON field can hold (plus
`undefined` for absent fields).  Finite numbers are exact rationals;
`NaN` and the two infinities are separate constructors. -/

/-- A JavaScript value as seen by the coercion step. -/
inductive JSVal where
  | num (q : ℚ)
  | nan
  | inf (positive : Bool)
  | str (s : String)
  | bool (b : Bool)
  | jsNull
  | undef
  deriving DecidableEq, Repr

/-- JavaScript truthiness: `false`, `0`, `-0`, `NaN`, `""`, `null` and
`undefined` are falsy; everything else is truthy. -/
def truthy : JSVal → Bool
  | .num q => q ≠ 0
  | .nan => false
  | .inf _ => true
  | .str s => s ≠ ""
  | .bool b => b
  | .jsNull => false
  | .undef => false

/-- JavaScript `a || b`. -/
def jsOr (a b : JSVal) : JSVal := if truthy a then a else b

/-- A value is a JavaScript number (`typeof === 'number'`), `NaN`
included. -/
def isNumberVal : JSVal → Bool
  | .num _ => true
  | .nan => true
  | .inf _ => true
  | _ => false

/-- A value is "defined and usable": not `NaN`, not `null`, not
`undefined`. -/
def definedNonNaN : JSVal → Bool
  | .nan => false
  | .jsNull => false
  | .undef => false
  | _ => true

/-- A value is a non-`NaN` number (finite or infinite). -/
def numericNonNaN : JSVal → Bool
  | .num _ => true
  | .inf _ => true
  | _ => false

/-- Value of a leading decimal literal `digits ('.' digits)?` scaled by
sign, as a rational; `none` when there is not at least one digit in the
integer or fraction part. -/
def decLitVal (s : List Char) : Option (ℚ × List Char) :=
  let intPart := s.takeWhile isDigitCh
  let rest := s.dropWhile isDigitCh
  let fraced : Option (List Char × List Char) := match rest with
    | '.' :: r =>
      let fp := r.takeWhile isDigitCh
      some (fp, r.dropWhile isDigitCh)
    | r => some ([], r)
  match fraced with
  | some (fracPart, rest2) =>
    if intPart.length = 0 ∧ fracPart.length = 0 then none
    else
      let digVal : List Char → ℚ := fun l =>
        l.foldl (fun acc c => acc * 10 + ((c.toNat - '0'.toNat : ℕ) : ℚ)) 0
      some (digVal intPart + digVal fracPart / ((10 : ℚ) ^ fracPart.length), rest2)
  | none => none

/-- Modelled from the spec: the platform `parseFloat` used by
`processEvents` in `server/index.js` (the repository calls the JS
builtin, which is not part of its sources).  Leading whitespace is
skipped, then the longest prefix that is a signed decimal literal with
optional exponent, or a signed `Infinity`, is converted; anything else
gives `NaN`.  Non-string arguments are first converted to strings, which
for the values in scope keeps numbers and sends `null`, `undefined` and
booleans to `NaN`. -/
def parseFloatJS : JSVal → JSVal
  | .num q => .num q
  | .nan => .nan
  | .inf b => .inf b
  | .bool _ => .nan
  | .jsNull => .nan
  | .undef => .nan
  | .str s =>
    let l := (s.toList).dropWhile isJsWs
    let (sign, l1) : ℚ × List Char := match l with
      | '-' :: r => (-1, r)
      | '+' :: r => (1, r)
      | r => (1, r)
    if l1.take 8 = "Infinity".toList then
      .inf (sign = 1)
    else
      match decLitVal l1 with
      | none => .nan
      | some (q, rest) =>
        match rest with
        | e :: r2 =>
          if e = 'e' ∨ e = 'E' then
            let (esign, r3) : (Int × List Char) := match r2 with
              | '-' :: r4 => (-1, r4)
              | '+' :: r4 => (1, r4)
              | r4 => (1, r4)
            let edigs := r3.takeWhile isDigitCh
            if edigs.length = 0 then .num (sign * q)
            else
              let ev : ℕ := edigs.foldl (fun acc c => acc * 10 + (c.toNat - '0'.toNat)) 0
              if esign = 1 then .num (sign * q * (10 : ℚ) ^ ev)
              else .num (sign * q / (10 : ℚ) ^ ev)
          else .num (sign * q)
        | [] => .num (sign * q)

/-- An incoming (parsed, pre-coercion) company object: each recognized
field is an arbitrary JavaScript value (`undef` when absent). -/
structure CompanyIn where
  name : JSVal
  symbol : JSVal
  price : JSVal
  change : JSVal
  changePercent : JSVal
  role : JSVal
  category : JSVal
  involvement : JSVal
  impact : JSVal
  confidence : JSVal
  deriving DecidableEq, Repr

/-- An incoming (parsed, pre-coercion) event object.  `companies` is
either an array or absent/`null` (`none`); a non-array truthy value
would crash `.map` in the source and is outside the model. -/
structure EventIn where
  id : JSVal
  title : JSVal
  date : JSVal
  type : JSVal
  severity : JSVal
  location : JSVal
  status : JSVal
  description : JSVal
  riskScore : JSVal
  marketImpact : JSVal
  companies : Option (List CompanyIn)
  deriving DecidableEq, Repr

/-- A coerced company object (output of `processEvent`'s inner map in
`gptCrisisService.ts`, lines 312–323). -/
structure CompanyOut where
  name : JSVal
  symbol : JSVal
  price : JSVal
  change : JSVal
  changePercent : JSVal
  role : JSVal
  category : JSVal
  involvement : JSVal
  impact : JSVal
  confidence : JSVal
  deriving DecidableEq, Repr

/-- A coerced event object (output of `processEvent`). -/
structure EventOut where
  id : JSVal
  title : JSVal
  date : JSVal
  type : JSVal
  severity : JSVal
  location : JSVal
  status : JSVal
  description : JSVal
  riskScore : JSVal
  marketImpact : JSVal
  companies : List CompanyOut
  deriving DecidableEq, Repr

/-- The inner company coercion of `processEvent`
(`gptCrisisService.ts`): every field is `input || default`. -/
def processCompany (company : CompanyIn) : CompanyOut where
  name := jsOr company.name (.str "Unknown Company")
  symbol := jsOr company.symbol (.str "N/A")
  price := jsOr company.price (.num 100)
  change := jsOr company.change (.num 0)
  changePercent := jsOr company.changePercent (.num 0)
  role := jsOr company.role (.str "Unknown role")
  category := jsOr company.category (.str "Technology")
  involvement := jsOr company.involvement (.str "Unknown involvement")
  impact := jsOr company.impact (.str "Neutral impact")
  confidence := jsOr company.confidence (.num 0.5)

/-- `processEvent` from `gptCrisisService.ts` (lines 300–325).
`todayStr` stands for `new Date().toISOString().split('T')[0]`. -/
def processEvent (event : EventIn) (index : Option ℕ) (todayStr : String) : EventOut where
  id := jsOr event.id (match index with
    | some i => .num ((i : ℚ) + 1)
    | none => .num 1)
  title := jsOr event.title (.str "Unknown Crisis")
  date := jsOr event.date (.str todayStr)
  type := jsOr event.type (.str "Political Crisis")
  severity := jsOr event.severity (.str "Medium")
  location := jsOr event.location (.str "Unknown")
  status := jsOr event.status (.str "Ongoing")
  description := jsOr event.description (.str "No description available")
  riskScore := jsOr event.riskScore (.num 50)
  marketImpact := jsOr event.marketImpact (.num 0)
  companies := (event.companies.getD []).map processCompany

/-- `processEvents` from `gptCrisisService.ts` (lines 296–298): each
event is processed with its array index. -/
def processEvents (events : List EventIn) (todayStr : String) : List EventOut :=
  (events.enum).map (fun p => processEvent p.2 (some p.1) todayStr)

/-- The company coercion of `processEvents` in `server/index.js`
(lines 157–163): spread plus `parseFloat(field) || default` for the four
numeric fields; the other fields pass through unchanged. -/
def processCompanyServer (company : CompanyIn) : CompanyOut where
  name := company.name
  symbol := company.symbol
  price := jsOr (parseFloatJS company.price) (.num 100)
  change := jsOr (parseFloatJS company.change) (.num 0)
  changePercent := jsOr (parseFloatJS company.changePercent) (.num 0)
  role := company.role
  category := company.category
  involvement := company.involvement
  impact := company.impact
  confidence := jsOr (parseFloatJS company.confidence) (.num 0.5)

/-- The event coercion of `processEvents` in `server/index.js`
(lines 153–165): spread plus `id: event.id || Math.floor(Math.random() *
10000)` (the random draw is the parameter `rnd`) and
`companies: event.companies?.map(...) || []`.  All other event fields —
`riskScore` and `marketImpact` included — pass through unchanged. -/
def processEventServer (event : EventIn) (rnd : ℕ) : EventOut where
  id := jsOr event.id (.num rnd)
  title := event.title
  date := event.date
  type := event.type
  severity := event.severity
  location := event.location
  status := event.status
  description := event.description
  riskScore := event.riskScore
  marketImpact := event.marketImpact
  companies := (event.companies.getD []).map processCompanyServer

/-! ## FallbackProvider datasets

The three static fallback datasets, transcribed literally:
`getFallbackData` in `server/index.js` (lines 167–210),
`getFallbackData` in `gptCrisisService.ts` (lines 327–399) and
`getFastFallbackData` in `fastApiService.ts` (lines 124–322). -/

/-- A company literal of a static fallback dataset (all fields present
by construction, mirroring the TypeScript object literals). -/
structure FbCompany where
  name : String
  symbol : String
  price : ℚ
  change : ℚ
  changePercent : ℚ
  category : String
  role : String
  involvement : String
  impact : String
  confidence : ℚ
  deriving DecidableEq, Repr

/-- An event literal of a static fallback dataset. -/
structure FbEvent where
  id : ℕ
  title : String
  description : String
  date : String
  type : String
  severity : String
  location : String
  status : String
  riskScore : ℚ
  marketImpact : ℚ
  companies : List FbCompany
  deriving DecidableEq, Repr

/-- The documented company-category enum: the union type
`CrisisCompany.category` in `gptCrisisService.ts` (line 36), which also
contains every category named in §3 of the spec and in the server
prompt. -/
def documentedCategories : List String :=
  ["Arms Supplier", "Defense Contractor", "Cleanup Contractor", "Insurance",
   "Technology", "Energy", "Healthcare", "Logistics", "Construction", "Financial"]

/-- `getFallbackData` from `server/index.js`: a single `events` array
(the object literal has no `lastUpdated`, `totalEvents` or
`highRiskEvents` keys). -/
def serverFallbackEvents : List FbEvent :=
  [{ id := 1, title := "Ukraine-Russia Conflict",
     description := "Ongoing military conflict affecting global markets and defense spending",
     date := "2024-01-15", type := "War", severity := "Critical",
     location := "Ukraine/Russia", status := "Ongoing",
     riskScore := 92, marketImpact := -1.8,
     companies :=
       [{ name := "Lockheed Martin", symbol := "LMT", price := 428.50,
          change := 12.75, changePercent := 3.07, category := "Arms Supplier",
          role := "Defense contractor",
          involvement := "Supplying military equipment and weapons systems",
          impact := "Increased defense contracts boosting revenue",
          confidence := 0.9 },
        { name := "Raytheon Technologies", symbol := "RTX", price := 95.80,
          change := 7.20, changePercent := 8.12, category := "Arms Supplier",
          role := "Weapons manufacturer",
          involvement := "Missile systems and defense technology",
          impact := "Higher demand for defense systems",
          confidence := 0.85 }] }]

/-- `getFallbackData` from `gptCrisisService.ts` (its `events` field;
the literal also sets `totalEvents: 2` and `highRiskEvents: 2`). -/
def gptFallbackEvents : List FbEvent :=
  [{ id := 1, title := "Ukraine-Russia Conflict",
     description := "Ongoing military conflict between Russia and Ukraine affecting global markets and supply chains",
     date := "2022-02-24", type := "War", severity := "Critical",
     location := "Ukraine, Eastern Europe", status := "Ongoing",
     riskScore := 95, marketImpact := -3.2,
     companies :=
       [{ name := "Lockheed Martin", symbol := "LMT", price := 425.50,
          change := 12.30, changePercent := 2.98, category := "Arms Supplier",
          role := "Defense contractor supplying weapons systems",
          involvement := "Providing missile systems and military equipment to Ukraine",
          impact := "Positive due to increased defense spending",
          confidence := 0.9 },
        { name := "Raytheon Technologies", symbol := "RTX", price := 115.75,
          change := 8.45, changePercent := 7.87, category := "Arms Supplier",
          role := "Defense contractor",
          involvement := "Supplying air defense systems",
          impact := "Significant positive impact from defense contracts",
          confidence := 0.85 }] },
   { id := 2, title := "Middle East Tensions",
     description := "Escalating conflict affecting regional stability and global oil markets",
     date := "2023-10-07", type := "War", severity := "High",
     location := "Israel, Palestine, Middle East", status := "Ongoing",
     riskScore := 85, marketImpact := 1.8,
     companies :=
       [{ name := "Exxon Mobil", symbol := "XOM", price := 118.90,
          change := 5.20, changePercent := 4.57, category := "Energy",
          role := "Energy company",
          involvement := "Oil price volatility affecting operations",
          impact := "Positive from higher oil prices",
          confidence := 0.75 }] }]

/-- `getFastFallbackData` from `fastApiService.ts` (its `events` field;
the literal also sets `totalEvents: 5` and `highRiskEvents: 4`). -/
def fastFallbackEvents : List FbEvent :=
  [{ id := 1, title := "Ukraine-Russia Conflict",
     description := "Ongoing military conflict with significant global impact on defense markets and energy supplies",
     date := "2024-02-15", type := "War", severity := "Critical",
     location := "Ukraine/Russia", status := "Ongoing",
     riskScore := 94, marketImpact := -2.1,
     companies :=
       [{ name := "Lockheed Martin", symbol := "LMT", price := 435.80,
          change := 15.25, changePercent := 3.62, category := "Arms Supplier",
          role := "Defense contractor",
          involvement := "Supplying HIMARS, Javelin missiles, and F-16 support systems",
          impact := "Massive increase in defense contracts and revenue",
          confidence := 0.95 },
        { name := "Raytheon Technologies", symbol := "RTX", price := 98.45,
          change := 8.90, changePercent := 9.94, category := "Arms Supplier",
          role := "Weapons manufacturer",
          involvement := "Patriot missile systems, Stinger missiles, radar technology",
          impact := "Record high demand for missile defense systems",
          confidence := 0.92 },
        { name := "General Dynamics", symbol := "GD", price := 267.30,
          change := 12.15, changePercent := 4.76, category := "Arms Supplier",
          role := "Military equipment",
          involvement := "Abrams tanks, artillery shells, ammunition production",
          impact := "Expanded production capacity and government contracts",
          confidence := 0.88 }] },
   { id := 2, title := "Middle East Energy Crisis",
     description := "Regional tensions affecting global oil supply chains and energy markets",
     date := "2024-03-01", type := "Political Crisis", severity := "High",
     location := "Middle East", status := "Escalating",
     riskScore := 82, marketImpact := 3.8,
     companies :=
       [{ name := "Exxon Mobil", symbol := "XOM", price := 124.67,
          change := 7.89, changePercent := 6.76, category := "Energy",
          role := "Oil producer",
          involvement := "Benefiting from supply disruptions and higher oil prices",
          impact := "Significant revenue increase from elevated crude prices",
          confidence := 0.85 },
        { name := "Chevron", symbol := "CVX", price := 162.45,
          change := 9.23, changePercent := 6.02, category := "Energy",
          role := "Oil & gas",
          involvement := "Alternative supply routes and increased production",
          impact := "Higher margins and expanded market share",
          confidence := 0.80 }] },
   { id := 3, title := "Taiwan Strait Tensions",
     description := "Escalating military posturing affecting semiconductor and technology markets",
     date := "2024-01-20", type := "Political Crisis", severity := "High",
     location := "Taiwan/China", status := "Escalating",
     riskScore := 89, marketImpact := -1.5,
     companies :=
       [{ name := "Taiwan Semiconductor", symbol := "TSM", price := 98.23,
          change := -4.56, changePercent := -4.44, category := "Technology",
          role := "Semiconductor manufacturer",
          involvement := "Critical supply chain vulnerability",
          impact := "Supply chain risks affecting global tech production",
          confidence := 0.90 },
        { name := "Northrop Grumman", symbol := "NOC", price := 456.78,
          change := 18.90, changePercent := 4.32, category := "Arms Supplier",
          role := "Defense systems",
          involvement := "Advanced missile defense and surveillance systems",
          impact := "Increased demand for Pacific defense capabilities",
          confidence := 0.87 }] },
   { id := 4, title := "African Sahel Conflicts",
     description := "Multiple regional conflicts affecting mining and resource extraction",
     date := "2024-02-10", type := "War", severity := "Medium",
     location := "West Africa", status := "Ongoing",
     riskScore := 71, marketImpact := 1.2,
     companies :=
       [{ name := "Newmont Corporation", symbol := "NEM", price := 43.21,
          change := 2.15, changePercent := 5.24, category := "Mining",
          role := "Gold mining",
          involvement := "Operations in conflict-affected regions",
          impact := "Higher gold prices due to regional instability",
          confidence := 0.75 }] },
   { id := 5, title := "Global Cyber Warfare Escalation",
     description := "State-sponsored cyber attacks targeting critical infrastructure",
     date := "2024-03-05", type := "Political Crisis", severity := "High",
     location := "Global", status := "Escalating",
     riskScore := 78, marketImpact := 2.3,
     companies :=
       [{ name := "CrowdStrike", symbol := "CRWD", price := 267.89,
          change := 23.45, changePercent := 9.59, category := "Technology",
          role := "Cybersecurity",
          involvement := "Increased demand for threat detection and response",
          impact := "Massive growth in cybersecurity contracts",
          confidence := 0.93 },
        { name := "Palo Alto Networks", symbol := "PANW", price := 298.67,
          change := 19.87, changePercent := 7.13, category := "Technology",
          role := "Network security",
          involvement := "Critical infrastructure protection services",
          impact := "Government and enterprise security spending surge",
          confidence := 0.89 }] }]

/-! ## The POST /api/analyze-crisis handler (`server/index.js`, lines 37–133)

The handler is embedded as a function of (a) whether
`process.env.REPLICATE_API_TOKEN` is set and (b) the outcome of the
`replicate.run` call: either a thrown error carrying the provider's
message, or raw response text. -/

/-- The body of an `analyze-crisis` HTTP response. -/
inductive CrisisRespBody where
  /-- 200 path: the crisis-data object built from the raw model text
  (sanitize → parse → coerce; its construction is irrelevant to the
  error-path claims, so the raw text is carried). -/
  | success (raw : List Char)
  /-- 500 path with only an `error` key. -/
  | errorOnly (msg : String)
  /-- 500 path with an `error` key and a `fallback` key whose value has
  a single `events` key. -/
  | errorWithFallback (msg : String) (fallbackEvents : List FbEvent)
  deriving DecidableEq

/-- An HTTP response of the handler. -/
structure CrisisResp where
  status : ℕ
  body : CrisisRespBody
  deriving DecidableEq

/-- Whether a response body carries a `fallback` payload at all. -/
def hasFallback : CrisisRespBody → Bool
  | .errorWithFallback _ _ => true
  | _ => false

/-- The `error` string of a response body, when present. -/
def errorOf : CrisisRespBody → Option String
  | .success _ => none
  | .errorOnly m => some m
  | .errorWithFallback m _ => some m

/-- The `POST /api/analyze-crisis` handler: a missing
`REPLICATE_API_TOKEN` returns `500 { error: 'Server configuration
error' }` (no fallback); a thrown error is caught and answered with
`500 { error: 'Analysis temporarily unavailable', fallback:
getFallbackData() }`; otherwise the 200 crisis-data response is built
from the model text. -/
def analyzeCrisisHandler (tokenPresent : Bool) (modelCall : Except String (List Char)) :
    CrisisResp :=
  if ¬ tokenPresent then
    { status := 500, body := .errorOnly "Server configuration error" }
  else
    match modelCall with
    | .error _ => { status := 500,
                    body := .errorWithFallback "Analysis temporarily unavailable"
                      serverFallbackEvents }
    | .ok raw => { status := 200, body := .success raw }

/-! ## Crisis-scan failure convergence
(`gptCrisisService.getAllCrisisData`, lines 62–180, and
`fastApiService.fetchFreshData`, lines 50–95) -/

/-- The crisis-data object assembled by the services (`events`,
`lastUpdated`, `totalEvents`, `highRiskEvents`). -/
structure CrisisDataM where
  events : List EventOut
  lastUpdatedMs : ℤ
  totalEvents : ℕ
  highRiskEvents : ℕ
  deriving DecidableEq

/-- View a fallback company literal as the JS object it denotes. -/
def fbCompanyToIn (c : FbCompany) : CompanyIn where
  name := .str c.name
  symbol := .str c.symbol
  price := .num c.price
  change := .num c.change
  changePercent := .num c.changePercent
  role := .str c.role
  category := .str c.category
  involvement := .str c.involvement
  impact := .str c.impact
  confidence := .num c.confidence

/-- View a fallback event literal as the JS object it denotes. -/
def fbEventToIn (e : FbEvent) : EventIn where
  id := .num e.id
  title := .str e.title
  date := .str e.date
  type := .str e.type
  severity := .str e.severity
  location := .str e.location
  status := .str e.status
  description := .str e.description
  riskScore := .num e.riskScore
  marketImpact := .num e.marketImpact
  companies := some (e.companies.map fbCompanyToIn)

/-- View a fallback company literal as an already-coerced company. -/
def fbCompanyToOut (c : FbCompany) : CompanyOut where
  name := .str c.name
  symbol := .str c.symbol
  price := .num c.price
  change := .num c.change
  changePercent := .num c.changePercent
  role := .str c.role
  category := .str c.category
  involvement := .str c.involvement
  impact := .str c.impact
  confidence := .num c.confidence

/-- View a fallback event literal as an already-coerced event. -/
def fbEventToOut (e : FbEvent) : EventOut where
  id := .num e.id
  title := .str e.title
  date := .str e.date
  type := .str e.type
  severity := .str e.severity
  location := .str e.location
  status := .str e.status
  description := .str e.description
  riskScore := .num e.riskScore
  marketImpact := .num e.marketImpact
  companies := e.companies.map fbCompanyToOut

/-- `getFallbackData()` of `gptCrisisService.ts` as a crisis-data
object (`totalEvents: 2`, `highRiskEvents: 2` are set literally). -/
def gptFallbackCrisisData (now : ℤ) : CrisisDataM where
  events := gptFallbackEvents.map fbEventToOut
  lastUpdatedMs := now
  totalEvents := 2
  highRiskEvents := 2

/-- `getFastFallbackData()` of `fastApiService.ts` as a crisis-data
object (`totalEvents: 5`, `highRiskEvents: 4` are set literally). -/
def fastFallbackCrisisData (now : ℤ) : CrisisDataM where
  events := fastFallbackEvents.map fbEventToOut
  lastUpdatedMs := now
  totalEvents := 5
  highRiskEvents := 4

/-- JavaScript `v >= 70` for the event filter
`e.riskScore >= 70` (numeric comparison; `NaN`, `null`-like and
non-numeric operands of the values in scope compare false; the
string-to-number coercion of `>=` is not exercised by any claim). -/
def jsGe70 (v : JSVal) : Bool :=
  match v with
  | .num q => 70 ≤ q
  | .inf positive => positive
  | _ => false

/-- Outcome of one production attempt inside
`getAllCrisisData`'s `try` block. -/
inductive GptFetchOutcome where
  /-- `replicate.run` (or anything before the parse) threw. -/
  | callThrew
  /-- `JSON.parse(cleanedResponse)` threw. -/
  | parseFailed
  /-- the parse succeeded with the given `events` field
  (`none` when the parsed object has no `events` key). -/
  | parsedOk (events : Option (List EventIn))
  deriving DecidableEq

/-- The result value of `getAllCrisisData` when the cache guard did not
serve (cache content `cache`, production outcome `outcome`).  On a parse
failure `parsedData` is replaced by `getFallbackData()` and then
processed like a success; on a thrown error the cache is returned when
non-null, else `getFallbackData()`.  (`x.length || 0` equals `x.length`
for a `Nat` length, which the `totalEvents` field uses directly.) -/
def getAllCrisisDataResult (cache : Option CrisisDataM) (outcome : GptFetchOutcome)
    (todayStr : String) (now : ℤ) : CrisisDataM :=
  match outcome with
  | .callThrew =>
    match cache with
    | some c => c
    | none => gptFallbackCrisisData now
  | .parseFailed =>
    let parsedEvents := gptFallbackEvents.map fbEventToIn
    { events := processEvents parsedEvents todayStr,
      lastUpdatedMs := now,
      totalEvents := parsedEvents.length,
      highRiskEvents := (parsedEvents.filter (fun e => jsGe70 e.riskScore)).length }
  | .parsedOk events =>
    { events := processEvents (events.getD []) todayStr,
      lastUpdatedMs := now,
      totalEvents := (events.getD []).length,
      highRiskEvents := ((events.getD []).filter (fun e => jsGe70 e.riskScore)).length }

/-- Outcome of one `fetchFreshData` run in `fastApiService.ts`. -/
inductive FastFetchOutcome where
  /-- the `/health` probe failed: fast fallback, unconditionally. -/
  | healthCheckFailed
  /-- the backend fetch or JSON decode threw. -/
  | fetchThrew
  /-- the backend answered with a crisis-data object. -/
  | ok (data : CrisisDataM)
  deriving DecidableEq

/-- The result value of `fetchFreshData` (cache content `cache`). -/
def fetchFreshDataResult (cache : Option CrisisDataM) (outcome : FastFetchOutcome)
    (now : ℤ) : CrisisDataM :=
  match outcome with
  | .healthCheckFailed => fastFallbackCrisisData now
  | .fetchThrew =>
    match cache with
    | some c => c
    | none => fastFallbackCrisisData now
  | .ok data => data

/-! ## Financial-analysis failure paths
(`newsService.ts`: `ProfitPredictorService`, lines 341–396 and 570–613;
`server/index.js`, lines 215–328) -/

/-- `getFallbackOpportunities` (`newsService.ts`, lines 565–568): the
source returns the empty array ("Return empty array instead of fake
data"). -/
def getFallbackOpportunities : List ℕ := []

/-- The value `analyzeProfitOpportunities` delivers when its `try`
block throws (fetch failed, non-OK status, or JSON decode error) —
`newsService.ts`, lines 392–395: `return this.getFallbackOpportunities()`. -/
def analyzeProfitOpportunitiesOnError : List ℕ := getFallbackOpportunities

/-- The value `generateTradingSignals` delivers when its `try` block
throws — `newsService.ts`, lines 609–612: `return []`. -/
def generateTradingSignalsOnError : List ℕ := []

/-- The body of the `analyze-financial` endpoint's 500 response
(`server/index.js`, lines 320–327): an `error` string and empty
`opportunities` and `signals` arrays. -/
structure FinancialErrorBody where
  error : String
  opportunities : List ℕ
  signals : List ℕ
  deriving DecidableEq

/-- The `analyze-financial` catch handler's response body. -/
def analyzeFinancialErrorBody : FinancialErrorBody where
  error := "Financial analysis temporarily unavailable"
  opportunities := []
  signals := []

/-! ## ResultCache TTL guards

The cache-serve conditions of the three services:
`gptCrisisService.getAllCrisisData` (lines 62–67, `CACHE_DURATION =
10 * 60 * 1000`), `SecureApiService.getCrisisData` (lines 46–54,
`30 * 60 * 1000`) and `fastApiService.getCrisisData` (lines 21–29,
`60 * 60 * 1000`).  Times are epoch milliseconds (`ℤ`). -/

/-- `CACHE_DURATION` of `GPTCrisisService` (10 minutes). -/
def GPT_CACHE_DURATION : ℤ := 10 * 60 * 1000

/-- `CACHE_DURATION` of `SecureApiService` (30 minutes). -/
def SECURE_CACHE_DURATION : ℤ := 30 * 60 * 1000

/-- `CACHE_DURATION` of `FastApiService` (1 hour). -/
def FAST_CACHE_DURATION : ℤ := 60 * 60 * 1000

/-- The cache guard `!forceRefresh && this.cache && this.lastFetch &&
now - this.lastFetch.getTime() < CACHE_DURATION`, common to all three
services (the secure and fast variants write it as nested `if`s with
`cacheAge = Date.now() - this.lastFetch.getTime()`). -/
def cacheGuard (forceRefresh : Bool) (cache : Option CrisisDataM)
    (lastFetch : Option ℤ) (now ttl : ℤ) : Bool :=
  match forceRefresh, cache, lastFetch with
  | false, some _, some t => decide (now - t < ttl)
  | _, _, _ => false

/-- What a `get` does: serve the cached entry, or fall through to a
fresh production. -/
inductive CacheAction where
  | serveCache
  | produce
  deriving DecidableEq

/-- The decision step of each service's `get` method. -/
def cacheDecision (forceRefresh : Bool) (cache : Option CrisisDataM)
    (lastFetch : Option ℤ) (now ttl : ℤ) : CacheAction :=
  if cacheGuard forceRefresh cache lastFetch now ttl then .serveCache else .produce

/-! ## Request interleaving and coalescing

Small-step models of concurrent `get-or-produce` executions.  In the
JavaScript event loop, the code between two `await`s runs atomically; a
step of the model is one such synchronous segment.

For `gptCrisisService.getAllCrisisData` the synchronous prologue checks
the cache and, on a miss, reaches `await replicate.run(...)` — so the
cache check and the start of a model call are a single atomic step, and
the cache is written only in the post-`await` segment.  There is no
in-flight registry.

For `fastApiService.getCrisisData` the synchronous prologue checks the
cache, then checks `isLoading`/`loadingPromise`; a miss with no load in
flight sets `isLoading = true` and installs `loadingPromise` before
yielding, and a miss with a load in flight subscribes to that promise.
`fetchFreshData` writes the cache before resolving, and the `finally`
clears the flags.  Result payloads are abstracted to `ℕ`. -/

/-- Shared state of `GPTCrisisService` during a production cycle. -/
structure GptRunState where
  cache : Option ℕ
  modelCalls : ℕ
  inflight : List ℕ
  delivered : List (ℕ × ℕ)
  deriving DecidableEq

/-- An atomic step of a `getAllCrisisData` caller: its prologue
(`start`) or the completion of its own model call (`finish`). -/
inductive GptEvent where
  | start (req : ℕ)
  | finish (req : ℕ) (v : ℕ)
  deriving DecidableEq

/-- One step of the `gptCrisisService` model. -/
def gptStep (s : GptRunState) : GptEvent → GptRunState
  | .start req =>
    match s.cache with
    | some v => { s with delivered := (req, v) :: s.delivered }
    | none => { s with modelCalls := s.modelCalls + 1, inflight := req :: s.inflight }
  | .finish req v =>
    if req ∈ s.inflight then
      { s with cache := some v, inflight := s.inflight.erase req,
               delivered := (req, v) :: s.delivered }
    else s

/-- The idle initial state (empty cache). -/
def gptInit : GptRunState where
  cache := none
  modelCalls := 0
  inflight := []
  delivered := []

/-- Run a schedule of events. -/
def gptRun (events : List GptEvent) : GptRunState :=
  events.foldl gptStep gptInit

/-- Shared state of `FastApiService` during a production cycle (a cached
entry is assumed inside its TTL window, as in the claim's scenario). -/
structure FastRunState where
  cache : Option ℕ
  isLoading : Bool
  waiting : List ℕ
  modelCalls : ℕ
  delivered : List (ℕ × ℕ)
  deriving DecidableEq

/-- An atomic step of the `fastApiService` model: a caller's prologue
(`start`) or the completion of the single in-flight `fetchFreshData`
(`complete`), which caches the value, resolves every subscribed caller
with it, and clears the flags. -/
inductive FastEvent where
  | start (req : ℕ)
  | complete (v : ℕ)
  deriving DecidableEq

/-- One step of the `fastApiService` model. -/
def fastStep (s : FastRunState) : FastEvent → FastRunState
  | .start req =>
    match s.cache with
    | some v => { s with delivered := (req, v) :: s.delivered }
    | none =>
      if s.isLoading then { s with waiting := req :: s.waiting }
      else { s with isLoading := true, modelCalls := s.modelCalls + 1,
                    waiting := [req] }
  | .complete v =>
    if s.isLoading then
      { s with cache := some v, isLoading := false, waiting := [],
               delivered := s.waiting.map (fun r => (r, v)) ++ s.delivered }
    else s

/-- The idle initial state (empty cache, nothing in flight). -/
def fastInit : FastRunState where
  cache := none
  isLoading := false
  waiting := []
  modelCalls := 0
  delivered := []

/-- Run a schedule of events. -/
def fastRun (events : List FastEvent) : FastRunState :=
  events.foldl fastStep fastInit

/-! ## DataValidator (`src/services/dataValidator.ts`)

Numbers are exact rationals; `Date.now()` and `timestamp.getTime()` are
epoch-millisecond parameters. -/

/-- Clamp to `[0, 100]`: `Math.max(0, Math.min(100, c))`. -/
def clamp0100 (c : ℚ) : ℚ := max 0 (min 100 c)

/-- `getDataQuality` (lines 275–279). -/
def getDataQuality (confidence : ℚ) : String :=
  if confidence ≥ 80 then "high"
  else if confidence ≥ 60 then "medium"
  else "low"

/-- A `ValidationResult`; `lastValidated` (a `Date`) is the validation
instant and carries no information for the invariants. -/
structure ValidationResultM where
  isValid : Bool
  errors : List String
  warnings : List String
  confidence : ℚ
  dataQuality : String
  deriving DecidableEq

/-- A `StockPrice` input (fields the validator reads). -/
structure StockPriceM where
  price : ℚ
  changePercent : ℚ
  volume : ℚ
  timestampMs : ℚ
  deriving DecidableEq

/-- 24 hours in milliseconds (`maxAge`). -/
def maxAgeMs : ℚ := 24 * 60 * 60 * 1000

/-- `calculateStockPriceConfidence` (lines 207–225). -/
def calculateStockPriceConfidence (now : ℚ) (price : StockPriceM)
    (errors warnings : List String) : ℚ :=
  let confidence : ℚ := 100
  let confidence := confidence - errors.length * 30
  let confidence := confidence - warnings.length * 10
  let dataAge := now - price.timestampMs
  let hoursSinceUpdate := dataAge / (1000 * 60 * 60)
  let confidence := confidence - min (hoursSinceUpdate * 2) 30
  let confidence := if price.volume < 1000 then confidence - 15 else confidence
  clamp0100 confidence

/-- `validateStockPrice` (lines 15–65). -/
def validateStockPrice (now : ℚ) (price : StockPriceM) : ValidationResultM :=
  let dataAge := now - price.timestampMs
  let errors :=
    (if price.price ≤ 0 then ["Stock price must be positive"] else []) ++
    (if |price.changePercent| > 100 then
      ["Price change exceeds 100% - likely data error"] else []) ++
    (if price.volume < 0 then ["Trading volume cannot be negative"] else []) ++
    (if dataAge > 7 * maxAgeMs then ["Stock data is too stale (over 7 days old)"] else [])
  let warnings :=
    (if price.price > 10000 then ["Unusually high stock price - please verify"] else []) ++
    (if |price.changePercent| > 50 then
      ["Extreme price change detected - verify data accuracy"] else []) ++
    (if dataAge > maxAgeMs then ["Stock data is more than 24 hours old"] else [])
  let confidence := calculateStockPriceConfidence now price errors warnings
  { isValid := errors.length = 0, errors := errors, warnings := warnings,
    confidence := confidence, dataQuality := getDataQuality confidence }

/-- A `TradingSignal` input (fields the validator reads). -/
structure TradingSignalM where
  action : String
  confidence : ℚ
  targetPrice : ℚ
  stopLoss : ℚ
  expectedReturn : ℚ
  riskLevel : String
  crisisTrigger : String
  dataFreshness : ℚ
  deriving DecidableEq

/-- Whether `pat` occurs as a contiguous substring of `l`. -/
def containsSub (l pat : List Char) : Bool :=
  match l with
  | [] => pat.isEmpty
  | _ :: cs => pat.isPrefixOf l || containsSub cs pat

/-- JavaScript `String.prototype.includes`. -/
def strIncludes (s sub : String) : Bool := containsSub s.toList sub.toList

/-- The BUY-branch warning condition
`(signal.targetPrice - signal.stopLoss) / signal.stopLoss < 0.1`.
When `stopLoss = 0` the JS quotient is `+Infinity` (no warning) for a
positive numerator, `NaN` (no warning) for a zero numerator and
`-Infinity` (warning) for a negative numerator. -/
def signalRiskRewardPoor (targetPrice stopLoss : ℚ) : Bool :=
  if stopLoss = 0 then targetPrice < 0
  else (targetPrice - stopLoss) / stopLoss < 0.1

/-- `calculateSignalConfidence` (lines 227–253). -/
def calculateSignalConfidence (signal : TradingSignalM)
    (errors warnings : List String) : ℚ :=
  let confidence := signal.confidence
  let confidence := confidence - errors.length * 25
  let confidence := confidence - warnings.length * 10
  let confidence :=
    if signal.dataFreshness > 30 then
      confidence - (signal.dataFreshness - 30) * 0.5
    else confidence
  let confidence :=
    if signal.riskLevel = "extreme" then confidence - 20
    else if signal.riskLevel = "high" then confidence - 10
    else if signal.riskLevel = "medium" then confidence - 5
    else confidence
  clamp0100 confidence

/-- `validateTradingSignal` (lines 67–138). -/
def validateTradingSignal (signal : TradingSignalM) : ValidationResultM :=
  let errors :=
    (if ¬ (["BUY", "SELL", "HOLD", "STRONG_BUY", "STRONG_SELL"].contains signal.action)
      then ["Invalid trading action"] else []) ++
    (if signal.confidence < 0 ∨ signal.confidence > 100 then
      ["Confidence must be between 0 and 100"] else []) ++
    (if signal.targetPrice ≤ 0 ∨ signal.stopLoss ≤ 0 then
      ["Target price and stop loss must be positive"] else []) ++
    (if strIncludes signal.action "BUY" ∧ signal.stopLoss ≥ signal.targetPrice then
      ["Stop loss should be below target price for BUY signals"] else []) ++
    (if strIncludes signal.action "SELL" ∧ signal.stopLoss ≤ signal.targetPrice then
      ["Stop loss should be above target price for SELL signals"] else []) ++
    (if signal.dataFreshness > 240 then
      ["Signal based on stale data (over 4 hours old)"] else [])
  let warnings :=
    (if signal.confidence < 30 then
      ["Low confidence signal - use with extreme caution"] else []) ++
    (if strIncludes signal.action "BUY" ∧
        signalRiskRewardPoor signal.targetPrice signal.stopLoss then
      ["Poor risk/reward ratio detected"] else []) ++
    (if |signal.expectedReturn| > 200 then
      ["Extremely high expected return - verify calculations"] else []) ++
    (if signal.dataFreshness > 60 then
      ["Signal based on data older than 1 hour"] else []) ++
    (if signal.crisisTrigger = "" ∨ signal.crisisTrigger.length < 10 then
      ["Insufficient crisis context provided"] else [])
  let confidence := calculateSignalConfidence signal errors warnings
  { isValid := errors.length = 0, errors := errors, warnings := warnings,
    confidence := confidence, dataQuality := getDataQuality confidence }

/-- A `ProfitOpportunity` input (fields the validator reads;
`riskFactors` absent or empty is the empty list, matching the
`!opportunity.riskFactors || length === 0` test). -/
structure ProfitOpportunityM where
  profitProbability : ℚ
  expectedReturn : ℚ
  timeToProfit : ℚ
  entryPrice : ℚ
  targetPrice : ℚ
  stopLoss : ℚ
  confidence : ℚ
  investmentThesis : String
  riskFactors : List String
  historicalAccuracy : Option ℚ
  deriving DecidableEq

/-- The opportunity risk/reward warning condition
`potentialGain / potentialLoss < 1`.  When `potentialLoss = 0` the JS
quotient is `+Infinity` or `NaN` (both compare false, so no warning). -/
def opportunityRiskRewardPoor (entryPrice targetPrice stopLoss : ℚ) : Bool :=
  let potentialLoss := |entryPrice - stopLoss|
  let potentialGain := |targetPrice - entryPrice|
  if potentialLoss = 0 then false
  else potentialGain / potentialLoss < 1

/-- `calculateOpportunityConfidence` (lines 255–273); a
`historicalAccuracy` of `0` is falsy in JS and skips the bonus. -/
def calculateOpportunityConfidence (opportunity : ProfitOpportunityM)
    (errors warnings : List String) : ℚ :=
  let confidence := opportunity.confidence
  let confidence := confidence - errors.length * 25
  let confidence := confidence - warnings.length * 8
  let confidence :=
    if opportunity.profitProbability < 50 then
      confidence - (50 - opportunity.profitProbability) * 0.5
    else confidence
  let confidence :=
    match opportunity.historicalAccuracy with
    | some h => if h = 0 then confidence else confidence + (h - 50) * 0.3
    | none => confidence
  clamp0100 confidence

/-- `validateProfitOpportunity` (lines 140–205). -/
def validateProfitOpportunity (opportunity : ProfitOpportunityM) : ValidationResultM :=
  let errors :=
    (if opportunity.profitProbability < 0 ∨ opportunity.profitProbability > 100 then
      ["Profit probability must be between 0 and 100"] else []) ++
    (if opportunity.expectedReturn < -100 then
      ["Expected return cannot be less than -100%"] else []) ++
    (if opportunity.timeToProfit ≤ 0 then ["Time to profit must be positive"] else []) ++
    (if opportunity.entryPrice ≤ 0 ∨ opportunity.targetPrice ≤ 0 ∨
        opportunity.stopLoss ≤ 0 then ["All prices must be positive"] else [])
  let warnings :=
    (if opportunity.profitProbability < 20 then
      ["Very low profit probability - high risk investment"] else []) ++
    (if opportunity.expectedReturn > 1000 then
      ["Extremely high expected return - verify calculations"] else []) ++
    (if opportunity.timeToProfit > 365 then
      ["Very long time horizon - consider market changes"] else []) ++
    (if opportunityRiskRewardPoor opportunity.entryPrice opportunity.targetPrice
        opportunity.stopLoss then ["Risk exceeds potential reward"] else []) ++
    (if opportunity.investmentThesis = "" ∨ opportunity.investmentThesis.length < 50 then
      ["Investment thesis should be more detailed"] else []) ++
    (if opportunity.riskFactors.isEmpty then
      ["No risk factors identified - analysis may be incomplete"] else [])
  let confidence := calculateOpportunityConfidence opportunity errors warnings
  { isValid := errors.length = 0, errors := errors, warnings := warnings,
    confidence := confidence, dataQuality := getDataQuality confidence }

/-! ## Derived predicates used by the theorem statements -/

/-- Every recognized field of a coerced company is defined and not
`NaN`/`null`. -/
def companyOutDefined (c : CompanyOut) : Bool :=
  definedNonNaN c.name && definedNonNaN c.symbol && definedNonNaN c.price &&
  definedNonNaN c.change && definedNonNaN c.changePercent && definedNonNaN c.role &&
  definedNonNaN c.category && definedNonNaN c.involvement && definedNonNaN c.impact &&
  definedNonNaN c.confidence

/-- Every recognized field of a coerced event (companies included) is
defined and not `NaN`/`null`. -/
def eventOutDefined (e : EventOut) : Bool :=
  definedNonNaN e.id && definedNonNaN e.title && definedNonNaN e.date &&
  definedNonNaN e.type && definedNonNaN e.severity && definedNonNaN e.location &&
  definedNonNaN e.status && definedNonNaN e.description &&
  definedNonNaN e.riskScore && definedNonNaN e.marketImpact &&
  e.companies.all companyOutDefined

/-- The four numeric company fields coerced by the server's
`processEvents` are non-`NaN` numbers. -/
def companyServerNumericOk (c : CompanyOut) : Bool :=
  numericNonNaN c.price && numericNonNaN c.change &&
  numericNonNaN c.changePercent && numericNonNaN c.confidence

/-- The invariants a `ValidationResult` is claimed to satisfy. -/
def validatorResultOk (r : ValidationResultM) : Prop :=
  (r.isValid = true ↔ r.errors = []) ∧
  0 ≤ r.confidence ∧ r.confidence ≤ 100 ∧
  (r.dataQuality = "high" ↔ 80 ≤ r.confidence) ∧
  (r.dataQuality = "medium" ↔ 60 ≤ r.confidence ∧ r.confidence < 80) ∧
  (r.dataQuality = "low" ↔ r.confidence < 60)

/-- The range and field invariants of §3 checked on a fallback event,
minus the category-enum check (stated separately). -/
def fbEventRangesOk (e : FbEvent) : Bool :=
  decide (0 ≤ e.riskScore) && decide (e.riskScore ≤ 100) &&
  e.companies.all (fun c =>
    decide (0 < c.price) && decide (0 ≤ c.confidence) && decide (c.confidence ≤ 1))

/-- Every company category of an event belongs to the documented enum. -/
def fbEventCategoriesOk (e : FbEvent) : Bool :=
  e.companies.all (fun c => documentedCategories.contains c.category)

/-! ## Helper lemmas -/

/-- Evaluation checks of the sanitizer model on concrete inputs. -/
lemma cleanJsonResponse_evaluation_checks :
    cleanJsonResponseServer "```".toList = [] ∧
    cleanJsonResponseFront "```".toList = [] ∧
    jsTrim "```".toList = "```".toList ∧
    cleanJsonResponseServer "5 ```".toList = ['5', ' '] ∧
    cleanJsonResponseServer ['5', ' '] = ['5'] ∧
    cleanJsonResponseServer ('a' :: ' ' :: braceOpen :: '1' :: braceClose :: 'b' :: [])
      = (braceOpen :: '1' :: braceClose :: []) := by
  refine ⟨by decide, by decide, by decide, by decide, by decide, by decide⟩

/-- Evaluation checks of the JSON validity model on concrete inputs. -/
lemma jsonParseOk_evaluation_checks :
    jsonParseOk ['5', ' '] = true ∧
    jsonParseOk ['5'] = true ∧
    jsonParseOk (braceOpen :: braceClose :: []) = true ∧
    jsonParseOk (braceOpen :: '"' :: 'a' :: '"' :: ':' :: '1' :: braceClose :: []) = true ∧
    jsonParseOk (braceOpen :: []) = false ∧
    jsonParseOk ['0', '1'] = false ∧
    jsonParseOk [] = false ∧
    jsonParseOk ['-', '2', '.', '5'] = true ∧
    jsonParseOk "true".toList = true ∧
    jsonParseOk "[1, 2]".toList = true := by
  refine ⟨by decide, by decide, by decide, by decide, by decide, by decide, by decide,
    by decide, by decide, by decide⟩

lemma truthy_definedNonNaN {v : JSVal} (h : truthy v = true) : definedNonNaN v = true := by
  cases v <;> simp_all [truthy, definedNonNaN]

lemma definedNonNaN_jsOr {v d : JSVal} (hd : definedNonNaN d = true) :
    definedNonNaN (jsOr v d) = true := by
  unfold jsOr
  by_cases h : truthy v = true
  · rw [if_pos h]; exact truthy_definedNonNaN h
  · rw [if_neg (by simpa using h)]; exact hd

lemma jsOr_self_or_default (v d : JSVal) : jsOr v d = v ∨ jsOr v d = d := by
  unfold jsOr
  by_cases h : truthy v = true
  · left; rw [if_pos h]
  · right; rw [if_neg (by simpa using h)]

lemma parseFloatJS_shape (v : JSVal) :
    (∃ q, parseFloatJS v = .num q) ∨ parseFloatJS v = .nan ∨ ∃ b, parseFloatJS v = .inf b := by
  cases v with
  | str s =>
    rw [parseFloatJS]
    repeat' split
    all_goals try dsimp only
    repeat' split
    all_goals
      first
        | exact Or.inr (Or.inr ⟨_, rfl⟩)
        | exact Or.inr (Or.inl rfl)
        | exact Or.inl ⟨_, rfl⟩
  | num q => exact Or.inl ⟨q, rfl⟩
  | nan => exact Or.inr (Or.inl rfl)
  | inf b => exact Or.inr (Or.inr ⟨b, rfl⟩)
  | bool b => exact Or.inr (Or.inl rfl)
  | jsNull => exact Or.inr (Or.inl rfl)
  | undef => exact Or.inr (Or.inl rfl)

lemma numericNonNaN_jsOr_parseFloat (v : JSVal) (d : ℚ) :
    numericNonNaN (jsOr (parseFloatJS v) (.num d)) = true := by
  rcases parseFloatJS_shape v with ⟨q, hq⟩ | h | ⟨b, hb⟩
  · rw [hq]; rcases jsOr_self_or_default (JSVal.num q) (.num d) with h | h <;>
      rw [h] <;> rfl
  · rw [h]; rfl
  · rw [hb]; rcases jsOr_self_or_default (JSVal.inf b) (.num d) with h | h <;>
      rw [h] <;> rfl

lemma clamp0100_nonneg (c : ℚ) : 0 ≤ clamp0100 c := le_max_left 0 _

lemma clamp0100_le (c : ℚ) : clamp0100 c ≤ 100 :=
  max_le (by norm_num) (min_le_left 100 c)

lemma getDataQuality_high_iff (q : ℚ) : getDataQuality q = "high" ↔ 80 ≤ q := by
  unfold getDataQuality
  split_ifs with h1 h2
  · simpa using h1
  · simp only [ge_iff_le, not_le] at h1
    constructor
    · intro h; exact absurd h (by decide)
    · intro h; exact absurd (lt_of_le_of_lt h h1) (by norm_num)
  · simp only [ge_iff_le, not_le] at h1
    constructor
    · intro h; exact absurd h (by decide)
    · intro h; exact absurd (lt_of_le_of_lt h h1) (by norm_num)

lemma getDataQuality_medium_iff (q : ℚ) :
    getDataQuality q = "medium" ↔ 60 ≤ q ∧ q < 80 := by
  unfold getDataQuality
  split_ifs with h1 h2
  · constructor
    · intro h; exact absurd h (by decide)
    · rintro ⟨-, h⟩; exact absurd h1 (not_le_of_lt h)
  · simp only [ge_iff_le, not_le] at h1
    simp [h2, h1]
  · simp only [ge_iff_le, not_le] at h1 h2
    constructor
    · intro h; exact absurd h (by decide)
    · rintro ⟨h, -⟩; exact absurd (lt_of_le_of_lt h h2) (by norm_num)

lemma getDataQuality_low_iff (q : ℚ) : getDataQuality q = "low" ↔ q < 60 := by
  unfold getDataQuality
  split_ifs with h1 h2
  · simp only [ge_iff_le] at h1
    constructor
    · intro h; exact absurd h (by decide)
    · intro h; exact absurd (lt_of_lt_of_le h (by norm_num)) (not_lt_of_le h1)
  · simp only [ge_iff_le, not_le] at h1
    constructor
    · intro h; exact absurd h (by decide)
    · intro h; exact absurd h2 (not_le_of_lt h)
  · simp only [ge_iff_le, not_le] at h1 h2
    simp [h2]

lemma validatorResultOk_mk (errors warnings : List String) (x : ℚ) :
    validatorResultOk
      { isValid := errors.length = 0, errors := errors, warnings := warnings,
        confidence := clamp0100 x, dataQuality := getDataQuality (clamp0100 x) } := by
  refine ⟨?_, clamp0100_nonneg x, clamp0100_le x, ?_, ?_, ?_⟩
  · simp [List.length_eq_zero]
  · exact getDataQuality_high_iff _
  · exact getDataQuality_medium_iff _
  · exact getDataQuality_low_iff _

lemma companyOutDefined_processCompany (c : CompanyIn) :
    companyOutDefined (processCompany c) = true := by
  simp only [companyOutDefined, processCompany, Bool.and_eq_true]
  repeat' apply And.intro
  all_goals exact definedNonNaN_jsOr rfl

lemma eventOutDefined_processEvent (e : EventIn) (idx : Option ℕ) (today : String) :
    eventOutDefined (processEvent e idx today) = true := by
  simp only [eventOutDefined, processEvent, Bool.and_eq_true, List.all_eq_true]
  repeat' apply And.intro
  · exact definedNonNaN_jsOr (by cases idx <;> rfl)
  all_goals
    first
      | exact definedNonNaN_jsOr rfl
      | (intro x hx
         simp only [List.mem_map] at hx
         obtain ⟨cIn, -, rfl⟩ := hx
         exact companyOutDefined_processCompany cIn)

lemma companyServerNumericOk_processCompanyServer (c : CompanyIn) :
    companyServerNumericOk (processCompanyServer c) = true := by
  simp only [companyServerNumericOk, processCompanyServer, Bool.and_eq_true]
  exact ⟨⟨⟨numericNonNaN_jsOr_parseFloat _ _, numericNonNaN_jsOr_parseFloat _ _⟩,
    numericNonNaN_jsOr_parseFloat _ _⟩, numericNonNaN_jsOr_parseFloat _ _⟩

/-! ## Claim theorems -/

/-- C10: every `ValidationResult` returned by `validateStockPrice`,
`validateTradingSignal` and `validateProfitOpportunity` satisfies:
`isValid` holds exactly when the error list is empty; the confidence
score lies in `[0, 100]`; and `dataQuality` is `"high"` exactly when
`confidence ≥ 80`, `"medium"` exactly when `60 ≤ confidence < 80`, and
`"low"` otherwise. -/
theorem C10_validation_result_invariants
    (now : ℚ) (sp : StockPriceM) (ts : TradingSignalM) (po : ProfitOpportunityM) :
    validatorResultOk (validateStockPrice now sp) ∧
    validatorResultOk (validateTradingSignal ts) ∧
    validatorResultOk (validateProfitOpportunity po) := by
  refine ⟨?_, ?_, ?_⟩
  · exact validatorResultOk_mk _ _ _
  · exact validatorResultOk_mk _ _ _
  · exact validatorResultOk_mk _ _ _

/-- C4: for each of the three caches (10-minute GPT cache, 30-minute
secure cache, 1-hour fast cache), with `forceRefresh` not requested and
an entry written at time `T`, the guard serves the entry exactly when
`now - T < TTL` (strict); in particular a get at `T + TTL - 1` ms
serves the cache with no production, and a get at `T + TTL + 1` ms does
not serve it and falls through to a fresh production. -/
theorem C4_ttl_strict_window (d : CrisisDataM) (T now : ℤ) :
    (GPT_CACHE_DURATION = 10 * 60 * 1000 ∧
     SECURE_CACHE_DURATION = 30 * 60 * 1000 ∧
     FAST_CACHE_DURATION = 60 * 60 * 1000) ∧
    (∀ ttl : ℤ,
      (cacheGuard false (some d) (some T) now ttl = true ↔ now - T < ttl) ∧
      cacheDecision false (some d) (some T) (T + ttl - 1) ttl = .serveCache ∧
      cacheDecision false (some d) (some T) (T + ttl + 1) ttl = .produce) := by
  refine ⟨⟨rfl, rfl, rfl⟩, fun ttl => ⟨?_, ?_, ?_⟩⟩
  · simp [cacheGuard]
  · simp only [cacheDecision, cacheGuard]
    rw [if_pos (by simp; omega)]
  · simp only [cacheDecision, cacheGuard]
    rw [if_neg (by simp; omega)]

/-- C6 counterexample: when the server credential is missing, the
`analyze-crisis` endpoint fails internally with status 500 but its body
carries no `fallback` payload at all, contradicting the claim that
every internal failure returns an error string plus a fallback payload
shaped like a success response. -/
theorem C6_counterexample :
    (analyzeCrisisHandler false (.error "upstream exception")).status = 500 ∧
    hasFallback (analyzeCrisisHandler false (.error "upstream exception")).body = false ∧
    errorOf (analyzeCrisisHandler false (.error "upstream exception")).body
      = some "Server configuration error" := by
  refine ⟨rfl, rfl, rfl⟩

/-- C6 amended: every internal failure of `analyze-crisis` yields
status 500 with a fixed error string that is independent of the thrown
exception (so no backend message or credential material can leak).  A
thrown error is answered with the fallback payload, which however
carries only an `events` array (not the full success shape); the
missing-credential path is answered with the error string alone and no
fallback payload. -/
theorem C6_amended_error_paths (e e' : String) (call : Except String (List Char)) :
    analyzeCrisisHandler true (.error e) =
      { status := 500,
        body := .errorWithFallback "Analysis temporarily unavailable" serverFallbackEvents } ∧
    analyzeCrisisHandler false call =
      { status := 500, body := .errorOnly "Server configuration error" } ∧
    analyzeCrisisHandler true (.error e) = analyzeCrisisHandler true (.error e') ∧
    serverFallbackEvents.length = 1 := by
  refine ⟨rfl, ?_, rfl, rfl⟩
  cases call <;> rfl

/-- C2 counterexample: on a failure of the profit-opportunities or
trading-signals analysis the delivered result is the empty list (the
`getFallbackOpportunities` fallback is deliberately empty, and the
server's financial error body carries empty arrays), contradicting the
claim that those analyses never return an empty "no data" result. -/
theorem C2_counterexample :
    analyzeProfitOpportunitiesOnError = [] ∧
    generateTradingSignalsOnError = [] ∧
    getFallbackOpportunities = [] ∧
    analyzeFinancialErrorBody.opportunities = [] ∧
    analyzeFinancialErrorBody.signals = [] :=
  ⟨rfl, rfl, rfl, rfl, rfl⟩

/-- C2 amended: for the crisis scan, every failure path converges on
the cache or on a non-empty static fallback — a thrown model call
returns the cached data when present and otherwise the static fallback
(2 events); a parse failure produces the processed static fallback
(2 events); the fast service returns its 5-event fallback when the
health check fails and cache-or-fallback when the fetch throws.  The
profit-opportunities and trading-signals analyses, however, deliver the
empty list on failure. -/
theorem C2_amended_failure_convergence (cache : Option CrisisDataM)
    (c : CrisisDataM) (todayStr : String) (now : ℤ) :
    getAllCrisisDataResult (some c) .callThrew todayStr now = c ∧
    getAllCrisisDataResult none .callThrew todayStr now = gptFallbackCrisisData now ∧
    (gptFallbackCrisisData now).events.length = 2 ∧
    (getAllCrisisDataResult cache .parseFailed todayStr now).events.length = 2 ∧
    fetchFreshDataResult cache .healthCheckFailed now = fastFallbackCrisisData now ∧
    (fastFallbackCrisisData now).events.length = 5 ∧
    fetchFreshDataResult (some c) .fetchThrew now = c ∧
    fetchFreshDataResult none .fetchThrew now = fastFallbackCrisisData now ∧
    analyzeProfitOpportunitiesOnError = [] ∧
    generateTradingSignalsOnError = [] := by
  refine ⟨rfl, rfl, ?_, ?_, ?_, ?_, rfl, rfl, rfl, rfl⟩
  · simp [gptFallbackCrisisData, gptFallbackEvents]
  · simp [getAllCrisisDataResult, processEvents, gptFallbackEvents]
  · cases cache <;> rfl
  · simp [fastFallbackCrisisData, fastFallbackEvents]

/-- C1 counterexample: a riskScore of `0` (present and numeric) is not
kept — `processEvent` replaces it with the default 50, because JS `||`
defaulting treats every falsy value as absent; likewise a confidence of
`0` becomes 0.5.  This contradicts the claim that a present field of
the expected type is kept unchanged, with `riskScore = 0` and
`confidence = 0` kept as 0. -/
theorem C1_counterexample :
    (processEvent
      { id := .num 3, title := .str "Border Standoff", date := .str "2025-01-01",
        type := .str "War", severity := .str "High", location := .str "Region",
        status := .str "Ongoing", description := .str "d",
        riskScore := .num 0, marketImpact := .num 0,
        companies := some [] } none "2025-01-01").riskScore = JSVal.num 50 ∧
    JSVal.num 50 ≠ JSVal.num 0 ∧
    (processCompany
      { name := .str "ACME", symbol := .str "ACM", price := .num 12,
        change := .num 1, changePercent := .num 2, role := .str "r",
        category := .str "Energy", involvement := .str "i",
        impact := .str "m", confidence := .num 0 }).confidence = JSVal.num 0.5 ∧
    JSVal.num 0.5 ≠ JSVal.num 0 := by
  refine ⟨?_, ?_, ?_, ?_⟩
  · simp [processEvent, jsOr, truthy]
  · simp
  · simp [processCompany, jsOr, truthy]
  · simp only [ne_eq, JSVal.num.injEq]
    norm_num

/-- C1 amended: the coercion is total but keyed on JS truthiness, not
on presence/type: every recognized field of `processEvent`'s output
(companies included) is defined and never `NaN` or `null` — a falsy
input (absent, `null`, `NaN`, `0`, or the empty string) is replaced by
the documented default and any truthy input is kept — and in the
server's `processEvents` the four coerced company fields are always
non-`NaN` numbers.  Zero values are *not* kept: they are falsy and
become the default. -/
theorem C1_amended_coercion_totality (e : EventIn) (idx : Option ℕ)
    (today : String) (c : CompanyIn) :
    eventOutDefined (processEvent e idx today) = true ∧
    companyServerNumericOk (processCompanyServer c) = true :=
  ⟨eventOutDefined_processEvent e idx today,
   companyServerNumericOk_processCompanyServer c⟩

/-- C7 counterexample: a riskScore of 150 and a confidence of 5 pass
through `processEvent` unchanged — no clamping to `[0, 100]` or
`[0, 1]` happens anywhere in the coercion step. -/
theorem C7_counterexample :
    (processEvent
      { id := .num 9, title := .str "Flood", date := .str "2025-02-02",
        type := .str "Natural Disaster", severity := .str "High",
        location := .str "Coast", status := .str "Ongoing",
        description := .str "d", riskScore := .num 150, marketImpact := .num 1,
        companies := some [] } none "2025-02-02").riskScore = JSVal.num 150 ∧
    ¬ ((150 : ℚ) ≤ 100) ∧
    (processCompany
      { name := .str "ACME", symbol := .str "ACM", price := .num 12,
        change := .num 1, changePercent := .num 2, role := .str "r",
        category := .str "Energy", involvement := .str "i",
        impact := .str "m", confidence := .num 5 }).confidence = JSVal.num 5 ∧
    ¬ ((5 : ℚ) ≤ 1) := by
  refine ⟨?_, by norm_num, ?_, by norm_num⟩
  · simp [processEvent, jsOr, truthy]
  · simp [processCompany, jsOr, truthy]

/-- C7 amended: no clamping is performed before storing.  A stored
`riskScore` is either the model's value unchanged or the default 50,
and a stored company `confidence` is either the model's value unchanged
or the default 0.5 (the default applying exactly to falsy inputs); the
server's `processEvents` passes `riskScore` and `marketImpact` through
entirely untouched.  Out-of-range values therefore survive to storage
as-is. -/
theorem C7_amended_no_clamping (e : EventIn) (idx : Option ℕ) (today : String)
    (c : CompanyIn) (rnd : ℕ) :
    ((processEvent e idx today).riskScore = e.riskScore ∨
     (processEvent e idx today).riskScore = JSVal.num 50) ∧
    ((processCompany c).confidence = c.confidence ∨
     (processCompany c).confidence = JSVal.num 0.5) ∧
    (processEventServer e rnd).riskScore = e.riskScore ∧
    (processEventServer e rnd).marketImpact = e.marketImpact := by
  refine ⟨jsOr_self_or_default _ _, jsOr_self_or_default _ _, rfl, rfl⟩

/-- C5 counterexample: in `gptCrisisService.getAllCrisisData` there is
no in-flight registry — two concurrent requests on an empty cache each
start their own model call (2 outbound calls, not 1), and they can even
deliver different results when the calls resolve differently. -/
theorem C5_counterexample :
    (gptRun [.start 1, .start 2, .finish 1 7, .finish 2 9]).modelCalls = 2 ∧
    (2 : ℕ) ≠ 1 ∧
    (1, 7) ∈ (gptRun [.start 1, .start 2, .finish 1 7, .finish 2 9]).delivered ∧
    (2, 9) ∈ (gptRun [.start 1, .start 2, .finish 1 7, .finish 2 9]).delivered := by
  refine ⟨rfl, by decide, ?_, ?_⟩ <;> decide

/-- C8 counterexample: the fast fallback dataset contains a company
(Newmont Corporation, in the African Sahel event) with category
`"Mining"`, which is not one of the documented category enum values —
so the static payload does not independently satisfy the full §3
schema. -/
theorem C8_counterexample :
    fastFallbackEvents.any
      (fun e => e.companies.any (fun c => c.category = "Mining")) = true ∧
    documentedCategories.contains "Mining" = false := by
  refine ⟨by decide, by decide⟩

/-- C8 amended: both cited fallback datasets (and the server's) have
batch-unique event ids, positive prices, confidences within `[0, 1]`
and risk scores within `[0, 100]`, and every recognized field present;
all categories of the gpt-service and server fallbacks lie in the
documented enum, while the fast fallback's categories lie in the
documented enum except the single `"Mining"` entry. -/
theorem C8_amended_fallback_validity :
    ((gptFallbackEvents.map FbEvent.id).Nodup ∧
     (fastFallbackEvents.map FbEvent.id).Nodup ∧
     (serverFallbackEvents.map FbEvent.id).Nodup) ∧
    (gptFallbackEvents.all fbEventRangesOk = true ∧
     fastFallbackEvents.all fbEventRangesOk = true ∧
     serverFallbackEvents.all fbEventRangesOk = true) ∧
    (gptFallbackEvents.all fbEventCategoriesOk = true ∧
     serverFallbackEvents.all fbEventCategoriesOk = true) ∧
    fastFallbackEvents.all
      (fun e => e.companies.all
        (fun c => documentedCategories.contains c.category || (c.category = "Mining")))
      = true := by
  refine ⟨⟨by decide, by decide, by decide⟩, ⟨?_, ?_, ?_⟩, ⟨by decide, by decide⟩, by decide⟩
  · norm_num [gptFallbackEvents, fbEventRangesOk]
  · norm_num [fastFallbackEvents, fbEventRangesOk]
  · norm_num [serverFallbackEvents, fbEventRangesOk]

lemma fastStep_start_loading {s : FastRunState} (h1 : s.cache = none)
    (h2 : s.isLoading = true) (r : ℕ) :
    fastStep s (.start r) = { s with waiting := r :: s.waiting } := by
  simp [fastStep, h1, h2]

lemma fastRun_starts_loading : ∀ (ids : List ℕ) (s : FastRunState),
    s.cache = none → s.isLoading = true →
    (ids.map FastEvent.start).foldl fastStep s =
      { s with waiting := ids.reverse ++ s.waiting } := by
  intro ids
  induction ids with
  | nil => intro s h1 h2; simp
  | cons a rest ih =>
    intro s h1 h2
    simp only [List.map_cons, List.foldl_cons]
    rw [fastStep_start_loading h1 h2]
    rw [ih { s with waiting := a :: s.waiting } h1 h2]
    simp

lemma gptStep_start_miss {s : GptRunState} (h1 : s.cache = none) (r : ℕ) :
    gptStep s (.start r) =
      { s with modelCalls := s.modelCalls + 1, inflight := r :: s.inflight } := by
  simp [gptStep, h1]

lemma gptRun_starts_calls : ∀ (ids : List ℕ) (s : GptRunState), s.cache = none →
    ((ids.map GptEvent.start).foldl gptStep s).modelCalls = s.modelCalls + ids.length := by
  intro ids
  induction ids with
  | nil => intro s h1; simp
  | cons a rest ih =>
    intro s h1
    simp only [List.map_cons, List.foldl_cons]
    rw [gptStep_start_miss h1]
    rw [ih { s with modelCalls := s.modelCalls + 1, inflight := a :: s.inflight } h1]
    simp only [List.length_cons]
    omega

/-- C5 amended: `fastApiService.getCrisisData` does coalesce — any
number of concurrent requests arriving on an empty cache before the
in-flight `fetchFreshData` completes trigger exactly one production,
and every caller resolves to the same produced value — but
`gptCrisisService.getAllCrisisData` does not: it has no in-flight
registry, and `N` concurrent requests on an empty cache start `N`
model calls. -/
theorem C5_amended_coalescing (ids : List ℕ) (v : ℕ) (h : ids ≠ []) :
    (fastRun (ids.map FastEvent.start ++ [FastEvent.complete v])).modelCalls = 1 ∧
    (∀ p ∈ (fastRun (ids.map FastEvent.start ++ [FastEvent.complete v])).delivered,
      p.2 = v) ∧
    (∀ r ∈ ids,
      (r, v) ∈ (fastRun (ids.map FastEvent.start ++ [FastEvent.complete v])).delivered) ∧
    (gptRun (ids.map GptEvent.start)).modelCalls = ids.length := by
  obtain ⟨a, rest, rfl⟩ : ∃ a rest, ids = a :: rest := by
    cases ids with
    | nil => exact absurd rfl h
    | cons a rest => exact ⟨a, rest, rfl⟩
  have hfinal :
      fastRun ((a :: rest).map FastEvent.start ++ [FastEvent.complete v]) =
        { cache := some v, isLoading := false, waiting := [], modelCalls := 1,
          delivered := (rest.reverse ++ [a]).map (fun r => (r, v)) ++ [] } := by
    unfold fastRun
    rw [List.foldl_append]
    simp only [List.map_cons, List.foldl_cons]
    have h1 : fastStep fastInit (.start a) =
        { cache := none, isLoading := true, waiting := [a], modelCalls := 1,
          delivered := [] } := rfl
    rw [h1, fastRun_starts_loading rest _ rfl rfl]
    rfl
  refine ⟨by rw [hfinal], ?_, ?_, ?_⟩
  · intro p hp
    rw [hfinal] at hp
    simp only [List.append_nil, List.mem_map] at hp
    obtain ⟨r, -, rfl⟩ := hp
    rfl
  · intro r hr
    rw [hfinal]
    simp only [List.append_nil, List.mem_map]
    refine ⟨r, ?_, rfl⟩
    simp only [List.mem_append, List.mem_reverse, List.mem_singleton]
    simpa [or_comm] using hr
  · have := gptRun_starts_calls (a :: rest) gptInit rfl
    simpa [gptRun, gptInit] using this

/-! ### Index, trim and fence-stripping lemmas -/

lemma firstIdx_spec {ch : Char} :
    ∀ {l : List Char} {i : ℕ}, firstIdx ch l = some i →
      i < l.length ∧ l[i]? = some ch := by
  intro l
  induction l with
  | nil => intro i h; simp [firstIdx] at h
  | cons c cs ih =>
    intro i h
    rw [firstIdx] at h
    by_cases hc : c = ch
    · rw [if_pos hc] at h
      injection h with h
      subst h
      exact ⟨Nat.succ_pos _, by simp [hc]⟩
    · rw [if_neg hc] at h
      cases hfc : firstIdx ch cs with
      | none => rw [hfc] at h; simp at h
      | some k =>
        rw [hfc] at h
        simp only [Option.map_some', Option.some.injEq] at h
        subst h
        obtain ⟨hlt, hget⟩ := ih hfc
        refine ⟨by simpa using Nat.succ_lt_succ hlt, ?_⟩
        simpa using hget

lemma lastIdx_spec {ch : Char} :
    ∀ {l : List Char} {j : ℕ}, lastIdx ch l = some j →
      j < l.length ∧ l[j]? = some ch := by
  intro l
  induction l with
  | nil => intro j h; simp [lastIdx] at h
  | cons c cs ih =>
    intro j h
    rw [lastIdx] at h
    cases hcs : lastIdx ch cs with
    | some k =>
      rw [hcs] at h
      injection h with h
      subst h
      obtain ⟨hlt, hget⟩ := ih hcs
      refine ⟨by simpa using Nat.succ_lt_succ hlt, ?_⟩
      simpa using hget
    | none =>
      rw [hcs] at h
      by_cases hc : c = ch
      · rw [if_pos hc] at h
        injection h with h
        subst h
        exact ⟨Nat.succ_pos _, by simp [hc]⟩
      · rw [if_neg hc] at h; cases h

lemma lastIdx_drop {ch : Char} :
    ∀ (n : ℕ) {l : List Char} {j : ℕ}, lastIdx ch l = some j → n ≤ j →
      lastIdx ch (l.drop n) = some (j - n) := by
  intro n
  induction n with
  | zero => intro l j h _; simpa using h
  | succ m ih =>
    intro l j h hn
    cases l with
    | nil => simp [lastIdx] at h
    | cons c cs =>
      rw [lastIdx] at h
      cases hcs : lastIdx ch cs with
      | some k =>
        rw [hcs] at h
        injection h with h
        subst h
        have : m ≤ k := by omega
        simpa [Nat.succ_sub_succ] using ih hcs this
      | none =>
        rw [hcs] at h
        by_cases hc : c = ch
        · rw [if_pos hc] at h; injection h with h; omega
        · rw [if_neg hc] at h; cases h

lemma firstIdx_zero_of_head {ch : Char} {l : List Char} (h : l.head? = some ch) :
    firstIdx ch l = some 0 := by
  cases l with
  | nil => cases h
  | cons c cs =>
    injection h with h
    rw [firstIdx, if_pos h]

lemma lastIdx_of_getLast? {ch : Char} :
    ∀ {l : List Char}, l.getLast? = some ch → lastIdx ch l = some (l.length - 1) := by
  intro l
  induction l with
  | nil => intro h; cases h
  | cons c cs ih =>
    intro h
    cases cs with
    | nil =>
      have hc : c = ch := by simpa [List.getLast?] using h
      show lastIdx ch [c] = some 0
      rw [lastIdx, lastIdx, if_pos hc]
    | cons d ds =>
      rw [List.getLast?_cons_cons] at h
      have hih := ih h
      rw [lastIdx, hih]
      simp

lemma head?_take' {l : List Char} {m : ℕ} (h : 0 < m) : (l.take m).head? = l.head? := by
  cases l with
  | nil => simp
  | cons c cs =>
    cases m with
    | zero => omega
    | succ k => simp

lemma getLast?_take' :
    ∀ {l : List Char} {k : ℕ}, k < l.length →
      (l.take (k + 1)).getLast? = l[k]? := by
  intro l
  induction l with
  | nil => intro k h; simp at h
  | cons c cs ih =>
    intro k h
    cases k with
    | zero => simp
    | succ m =>
      cases cs with
      | nil => simp at h
      | cons d ds =>
        have hm : m < (d :: ds).length := by
          simp only [List.length_cons] at h ⊢
          omega
        calc ((c :: d :: ds).take (m + 2)).getLast?
            = (c :: (d :: ds).take (m + 1)).getLast? := by
              rw [List.take_succ_cons]
          _ = ((d :: ds).take (m + 1)).getLast? := by
              rw [List.take_succ_cons, List.getLast?_cons_cons]
          _ = (d :: ds)[m]? := ih hm
          _ = (c :: d :: ds)[m + 1]? := by simp

lemma slice_head? {l : List Char} {i j : ℕ} {ch : Char} (hij : i ≤ j)
    (h : l[i]? = some ch) :
    ((l.drop i).take (j + 1 - i)).head? = some ch := by
  rw [head?_take' (by omega), List.head?_drop]
  exact h

lemma slice_getLast? {l : List Char} {i j : ℕ} {ch : Char} (hij : i ≤ j)
    (hj : j < l.length) (h : l[j]? = some ch) :
    ((l.drop i).take (j + 1 - i)).getLast? = some ch := by
  have hlen : j - i < (l.drop i).length := by
    rw [List.length_drop]
    omega
  have he : j + 1 - i = (j - i) + 1 := by omega
  rw [he, getLast?_take' hlen, List.getElem?_drop]
  have he2 : i + (j - i) = j := by omega
  rw [he2]
  exact h

lemma isJsWs_braceOpen : isJsWs braceOpen = false := by decide

lemma isJsWs_braceClose : isJsWs braceClose = false := by decide

lemma dropWhile_eq_self_of_head {l : List Char} {c : Char} (h : l.head? = some c)
    (hc : isJsWs c = false) : l.dropWhile isJsWs = l := by
  cases l with
  | nil => rfl
  | cons a as =>
    injection h with h
    subst h
    rw [List.dropWhile_cons, if_neg (by simp [hc])]

lemma jsTrim_eq_self {l : List Char} {a b : Char} (h1 : l.head? = some a)
    (ha : isJsWs a = false) (h2 : l.getLast? = some b) (hb : isJsWs b = false) :
    jsTrim l = l := by
  unfold jsTrim
  rw [dropWhile_eq_self_of_head h1 ha]
  rw [dropWhile_eq_self_of_head (by rw [List.head?_reverse]; exact h2) hb]
  exact List.reverse_reverse l

lemma containsSub_mono {p₁ p₂ : List Char} (hpre : p₁.isPrefixOf p₂ = true) :
    ∀ {l : List Char}, containsSub l p₁ = false → containsSub l p₂ = false := by
  intro l
  induction l with
  | nil =>
    intro h
    rw [containsSub] at h ⊢
    cases p₂ with
    | nil =>
      cases p₁ with
      | nil => cases h
      | cons x xs => simp [List.isPrefixOf] at hpre
    | cons y ys => rfl
  | cons c cs ih =>
    intro h
    rw [containsSub, Bool.or_eq_false_iff] at h ⊢
    refine ⟨?_, ih h.2⟩
    by_contra hcon
    rw [Bool.not_eq_false] at hcon
    have h12 : p₁ <+: p₂ := List.isPrefixOf_iff_prefix.mp hpre
    have h2l : p₂ <+: (c :: cs) := List.isPrefixOf_iff_prefix.mp hcon
    have hfin : p₁.isPrefixOf (c :: cs) = true :=
      List.isPrefixOf_iff_prefix.mpr (h12.trans h2l)
    rw [hfin] at h
    cases h.1

lemma stripPatAux_id {p : Char} {ps : List Char} {ws : Bool} :
    ∀ {l : List Char}, containsSub l (p :: ps) = false →
      stripPatAux p ps ws l.length l = l := by
  intro l
  induction l with
  | nil => intro _; rfl
  | cons c cs ih =>
    intro h
    rw [containsSub, Bool.or_eq_false_iff] at h
    show stripPatAux p ps ws (cs.length + 1) (c :: cs) = c :: cs
    rw [stripPatAux]
    rw [if_neg ?hneg]
    case hneg =>
      rintro ⟨heq, hpre⟩
      subst heq
      have hfull : (c :: ps).isPrefixOf (c :: cs) = true := by
        simp [List.isPrefixOf, hpre]
      rw [hfull] at h
      cases h.1
    rw [ih h.2]

lemma stripAll_id {pat : String} {ws : Bool} {l : List Char}
    (hne : pat.toList ≠ []) (h : containsSub l pat.toList = false) :
    stripAll pat ws l = l := by
  rw [stripAll]
  cases hp : pat.toList with
  | nil => exact absurd hp hne
  | cons p ps =>
    rw [hp] at h
    exact stripPatAux_id h

lemma fenceStrippedServer_id {t : List Char} (h1 : jsTrim t = t)
    (h2 : containsSub t "```".toList = false) : fenceStrippedServer t = t := by
  have hjson : containsSub t "```json".toList = false :=
    containsSub_mono (by decide) h2
  unfold fenceStrippedServer
  rw [h1, stripAll_id (by decide) hjson, stripAll_id (by decide) h2]

lemma fenceStrippedFront_id {t : List Char}
    (h2 : containsSub t "```".toList = false) : fenceStrippedFront t = t := by
  have hjson : containsSub t "```json".toList = false :=
    containsSub_mono (by decide) h2
  unfold fenceStrippedFront
  rw [stripAll_id (by decide) hjson, stripAll_id (by decide) h2]

lemma cleanServer_eq (s : List Char) :
    cleanJsonResponseServer s =
      (if jsIndexOf (fenceStrippedServer s) braceOpen ≠ -1 ∧
          jsLastIndexOf (fenceStrippedServer s) braceClose + 1 >
            jsIndexOf (fenceStrippedServer s) braceOpen
       then jsSubstring (fenceStrippedServer s)
              (jsIndexOf (fenceStrippedServer s) braceOpen)
              (jsLastIndexOf (fenceStrippedServer s) braceClose + 1)
       else fenceStrippedServer s) := rfl

lemma cleanFront_eq (s : List Char) :
    cleanJsonResponseFront s =
      (let c := fenceStrippedFront s
       let c1 := if jsIndexOf c braceOpen > 0
                 then c.drop (jsIndexOf c braceOpen).toNat else c
       let c2 := if jsLastIndexOf c1 braceClose > 0 ∧
                    jsLastIndexOf c1 braceClose < (c1.length : Int) - 1
                 then c1.take ((jsLastIndexOf c1 braceClose).toNat + 1) else c1
       jsTrim c2) := rfl

lemma cleanServer_slice {s : List Char} {i j : ℕ}
    (hf : firstIdx braceOpen (fenceStrippedServer s) = some i)
    (hl : lastIdx braceClose (fenceStrippedServer s) = some j)
    (hij : i < j) :
    cleanJsonResponseServer s =
      ((fenceStrippedServer s).drop i).take (j + 1 - i) ∧
    (cleanJsonResponseServer s).head? = some braceOpen ∧
    (cleanJsonResponseServer s).getLast? = some braceClose := by
  obtain ⟨hilen, higet⟩ := firstIdx_spec hf
  obtain ⟨hjlen, hjget⟩ := lastIdx_spec hl
  have e1 : jsIndexOf (fenceStrippedServer s) braceOpen = (i : Int) := by
    rw [jsIndexOf, hf]
  have e2 : jsLastIndexOf (fenceStrippedServer s) braceClose = (j : Int) := by
    rw [jsLastIndexOf, hl]
  have hmain : cleanJsonResponseServer s =
      ((fenceStrippedServer s).drop i).take (j + 1 - i) := by
    rw [cleanServer_eq, e1, e2]
    rw [if_pos (by constructor <;> omega)]
    rw [jsSubstring, (by omega : ((i : Int)).toNat = i),
      (by omega : ((j : Int) + 1).toNat = j + 1)]
  refine ⟨hmain, ?_, ?_⟩
  · rw [hmain]
    exact slice_head? (le_of_lt hij) higet
  · rw [hmain]
    exact slice_getLast? (le_of_lt hij) hjlen hjget

lemma cleanServer_noBrace {s : List Char}
    (h : firstIdx braceOpen (fenceStrippedServer s) = none ∨
         lastIdx braceClose (fenceStrippedServer s) = none) :
    cleanJsonResponseServer s = fenceStrippedServer s := by
  rw [cleanServer_eq]
  rcases h with h | h
  · have e1 : jsIndexOf (fenceStrippedServer s) braceOpen = -1 := by
      rw [jsIndexOf, h]
    rw [e1]
    rw [if_neg (by simp)]
  · have e2 : jsLastIndexOf (fenceStrippedServer s) braceClose = -1 := by
      rw [jsLastIndexOf, h]
    rw [e2]
    cases hf : firstIdx braceOpen (fenceStrippedServer s) with
    | none =>
      have e1 : jsIndexOf (fenceStrippedServer s) braceOpen = -1 := by
        rw [jsIndexOf, hf]
      rw [e1, if_neg (by simp)]
    | some i =>
      have e1 : jsIndexOf (fenceStrippedServer s) braceOpen = (i : Int) := by
        rw [jsIndexOf, hf]
      rw [e1, if_neg (by rintro ⟨-, hgt⟩; omega)]

lemma cleanFront_slice {s : List Char} {i j : ℕ}
    (hf : firstIdx braceOpen (fenceStrippedFront s) = some i)
    (hl : lastIdx braceClose (fenceStrippedFront s) = some j)
    (hij : i < j) :
    cleanJsonResponseFront s =
      ((fenceStrippedFront s).drop i).take (j + 1 - i) ∧
    (cleanJsonResponseFront s).head? = some braceOpen ∧
    (cleanJsonResponseFront s).getLast? = some braceClose := by
  obtain ⟨hilen, higet⟩ := firstIdx_spec hf
  obtain ⟨hjlen, hjget⟩ := lastIdx_spec hl
  set c := fenceStrippedFront s with hc
  have e1 : jsIndexOf c braceOpen = (i : Int) := by rw [jsIndexOf, hf]
  -- after the first conditional slice, the working text is `c.drop i`
  have hc1 : (if jsIndexOf c braceOpen > 0
      then c.drop (jsIndexOf c braceOpen).toNat else c) = c.drop i := by
    rw [e1]
    by_cases hi : 0 < i
    · rw [if_pos (by exact_mod_cast hi)]
      simp
    · have hzero : i = 0 := by omega
      subst hzero
      simp
  have hlast1 : lastIdx braceClose (c.drop i) = some (j - i) :=
    lastIdx_drop i hl (le_of_lt hij)
  have e2 : jsLastIndexOf (c.drop i) braceClose = ((j - i : ℕ) : Int) := by
    rw [jsLastIndexOf, hlast1]
  have hdlen : (c.drop i).length = c.length - i := List.length_drop i c
  have hslice_head : (((c.drop i)).take (j + 1 - i)).head? = some braceOpen :=
    slice_head? (le_of_lt hij) higet
  have hslice_last : (((c.drop i)).take (j + 1 - i)).getLast? = some braceClose :=
    slice_getLast? (le_of_lt hij) hjlen hjget
  have hmain : cleanJsonResponseFront s = (c.drop i).take (j + 1 - i) := by
    rw [cleanFront_eq]
    simp only
    rw [hc1, e2]
    by_cases hcase : j + 1 < c.length
    · rw [if_pos ?hpos]
      case hpos =>
        constructor
        · exact_mod_cast Nat.sub_pos_of_lt hij
        · rw [hdlen]
          omega
      have harg : ((j - i : ℕ) : Int).toNat + 1 = j + 1 - i := by omega
      rw [harg]
      exact jsTrim_eq_self (slice_head? (le_of_lt hij) higet) isJsWs_braceOpen
        (slice_getLast? (le_of_lt hij) hjlen hjget) isJsWs_braceClose
    · -- the last `}` is the final character: no second slice
      have hj_eq : j = c.length - 1 := by omega
      rw [if_neg ?hneg]
      case hneg =>
        rintro ⟨-, hlt⟩
        rw [hdlen] at hlt
        omega
      have htake : (c.drop i).take (j + 1 - i) = c.drop i := by
        apply List.take_of_length_le
        rw [hdlen]
        omega
      rw [htake] at hslice_head hslice_last ⊢
      exact jsTrim_eq_self hslice_head isJsWs_braceOpen hslice_last isJsWs_braceClose
  exact ⟨hmain, by rw [hmain]; exact hslice_head, by rw [hmain]; exact hslice_last⟩

lemma cleanFront_noBrace {s : List Char}
    (hf : firstIdx braceOpen (fenceStrippedFront s) = none)
    (hl : lastIdx braceClose (fenceStrippedFront s) = none) :
    cleanJsonResponseFront s = jsTrim (fenceStrippedFront s) := by
  rw [cleanFront_eq]
  simp only
  have e1 : jsIndexOf (fenceStrippedFront s) braceOpen = -1 := by rw [jsIndexOf, hf]
  have hc1 : (if jsIndexOf (fenceStrippedFront s) braceOpen > 0
      then (fenceStrippedFront s).drop (jsIndexOf (fenceStrippedFront s) braceOpen).toNat
      else fenceStrippedFront s) = fenceStrippedFront s := by
    rw [e1]
    rw [if_neg (by omega)]
  rw [hc1]
  have e2 : jsLastIndexOf (fenceStrippedFront s) braceClose = -1 := by
    rw [jsLastIndexOf, hl]
  rw [e2, if_neg (by rintro ⟨hgt, -⟩; omega)]

/-- C3 counterexample: the input consisting of a bare code fence
sanitizes to the empty string under both variants (the fence stripping
erases it entirely), although its trimmed form is non-empty — so the
sanitizer does not "return the trimmed original text unchanged (never
the empty string for non-empty trimmed input)" when no braces are
found. -/
theorem C3_counterexample :
    cleanJsonResponseServer "```".toList = [] ∧
    cleanJsonResponseFront "```".toList = [] ∧
    jsTrim "```".toList = "```".toList ∧
    "```".toList ≠ [] := by
  refine ⟨by decide, by decide, by decide, by decide⟩

/-- C3 amended: after fence-stripping (the server variant also trims
first), when a first `{` at position `i` and a last `}` at position `j`
exist with `i < j`, both variants return exactly the slice from `i`
through `j` inclusive — a string starting with `{` and ending with `}`;
when no brace is found, the server variant returns the fence-stripped
trimmed text as-is (which is not re-trimmed and, for fence-only input,
can be empty) and the frontend variant returns it trimmed.  The
original claim fails only in its parenthetical: fence-stripping can
produce the empty string from non-empty trimmed input. -/
theorem C3_amended_sanitizer_algorithm (s : List Char) :
    (∀ i j : ℕ, firstIdx braceOpen (fenceStrippedServer s) = some i →
      lastIdx braceClose (fenceStrippedServer s) = some j → i < j →
      cleanJsonResponseServer s = ((fenceStrippedServer s).drop i).take (j + 1 - i) ∧
      (cleanJsonResponseServer s).head? = some braceOpen ∧
      (cleanJsonResponseServer s).getLast? = some braceClose) ∧
    (firstIdx braceOpen (fenceStrippedServer s) = none ∨
      lastIdx braceClose (fenceStrippedServer s) = none →
      cleanJsonResponseServer s = fenceStrippedServer s) ∧
    (∀ i j : ℕ, firstIdx braceOpen (fenceStrippedFront s) = some i →
      lastIdx braceClose (fenceStrippedFront s) = some j → i < j →
      cleanJsonResponseFront s = ((fenceStrippedFront s).drop i).take (j + 1 - i) ∧
      (cleanJsonResponseFront s).head? = some braceOpen ∧
      (cleanJsonResponseFront s).getLast? = some braceClose) ∧
    (firstIdx braceOpen (fenceStrippedFront s) = none →
      lastIdx braceClose (fenceStrippedFront s) = none →
      cleanJsonResponseFront s = jsTrim (fenceStrippedFront s)) := by
  refine ⟨?_, cleanServer_noBrace, ?_, cleanFront_noBrace⟩
  · intro i j hf hl hij
    exact cleanServer_slice hf hl hij
  · intro i j hf hl hij
    exact cleanFront_slice hf hl hij

/-- Witness for the C3 amended theorem at the concrete input
`a{1}b` (as a character list): the hypotheses hold with `i = 1`,
`j = 3`, and the sanitized output is `{1}`. -/
theorem C3_amended_sanitizer_algorithm_witness :
    firstIdx braceOpen (fenceStrippedServer ['a', '{', '1', '}', 'b']) = some 1 ∧
    lastIdx braceClose (fenceStrippedServer ['a', '{', '1', '}', 'b']) = some 3 ∧
    1 < 3 ∧
    (cleanJsonResponseServer ['a', '{', '1', '}', 'b'] =
        ((fenceStrippedServer ['a', '{', '1', '}', 'b']).drop 1).take (3 + 1 - 1) ∧
      (cleanJsonResponseServer ['a', '{', '1', '}', 'b']).head? = some braceOpen ∧
      (cleanJsonResponseServer ['a', '{', '1', '}', 'b']).getLast? = some braceClose) :=
  ⟨by decide, by decide, by decide,
   (C3_amended_sanitizer_algorithm ['a', '{', '1', '}', 'b']).1 1 3
     (by decide) (by decide) (by decide)⟩

/-- C9 counterexample: the server variant is not idempotent on all of
its valid-JSON outputs.  The input `5 ```` ``` `` sanitizes to `5 `
(with a trailing space), which `JSON.parse` accepts, yet re-sanitizing
trims it to `5`. -/
theorem C9_counterexample :
    jsonParseOk (cleanJsonResponseServer "5 ```".toList) = true ∧
    cleanJsonResponseServer (cleanJsonResponseServer "5 ```".toList) ≠
      cleanJsonResponseServer "5 ```".toList := by
  refine ⟨by decide, by decide⟩

/-- C9 amended: sanitization is idempotent on every text that is
already trimmed, contains no fence marker, and either contains no brace
or is brace-delimited (`{`…`}`) — in particular on every sanitized
output that is a JSON object string, for both variants.  It is not
idempotent on all valid-JSON sanitized outputs, because the server
variant does not re-trim its no-brace result (counterexample: the
scalar output `5 ` of input `5 ```` ``` ``). -/
theorem C9_amended_idempotence (t : List Char) (h1 : jsTrim t = t)
    (h2 : containsSub t "```".toList = false)
    (h3 : (firstIdx braceOpen t = none ∧ lastIdx braceClose t = none) ∨
          (t.head? = some braceOpen ∧ t.getLast? = some braceClose)) :
    cleanJsonResponseServer t = t ∧ cleanJsonResponseFront t = t := by
  have hs : fenceStrippedServer t = t := fenceStrippedServer_id h1 h2
  have hfr : fenceStrippedFront t = t := fenceStrippedFront_id h2
  rcases h3 with ⟨hfo, hlo⟩ | ⟨hhead, hlast⟩
  · constructor
    · rw [cleanServer_noBrace (Or.inl (by rw [hs]; exact hfo)), hs]
    · rw [cleanFront_noBrace (by rw [hfr]; exact hfo) (by rw [hfr]; exact hlo), hfr, h1]
  · have hf0 : firstIdx braceOpen t = some 0 := firstIdx_zero_of_head hhead
    have hlj : lastIdx braceClose t = some (t.length - 1) := lastIdx_of_getLast? hlast
    have hlen2 : 2 ≤ t.length := by
      cases t with
      | nil => cases hhead
      | cons c cs =>
        cases cs with
        | nil =>
          exfalso
          have h1' : c = braceOpen := by simpa using hhead
          have h2' : c = braceClose := by simpa [List.getLast?] using hlast
          rw [h1'] at h2'
          cases h2'
        | cons d ds => simp
    have h0j : 0 < t.length - 1 := by omega
    constructor
    · obtain ⟨hm, -, -⟩ :=
        cleanServer_slice (s := t) (by rw [hs]; exact hf0) (by rw [hs]; exact hlj) h0j
      rw [hm, hs]
      simp only [List.drop_zero]
      apply List.take_of_length_le
      omega
    · obtain ⟨hm, -, -⟩ :=
        cleanFront_slice (s := t) (by rw [hfr]; exact hf0) (by rw [hfr]; exact hlj) h0j
      rw [hm, hfr]
      simp only [List.drop_zero]
      apply List.take_of_length_le
      omega

/-- Witness for the C9 amended theorem at the concrete input `5`:
trimmed, fence-free, brace-free, and sanitized to itself by both
variants. -/
theorem C9_amended_idempotence_witness :
    jsTrim "5".toList = "5".toList ∧
    containsSub "5".toList "```".toList = false ∧
    firstIdx braceOpen "5".toList = none ∧
    lastIdx braceClose "5".toList = none ∧
    (cleanJsonResponseServer "5".toList = "5".toList ∧
     cleanJsonResponseFront "5".toList = "5".toList) :=
  ⟨by decide, by decide, by decide, by decide,
   C9_amended_idempotence "5".toList (by decide) (by decide)
     (Or.inl ⟨by decide, by decide⟩)⟩

/-- Witness for the C5 amended theorem: three concurrent requests
(ids 1, 2, 3) on the empty fast cache with the production resolving to
7 trigger exactly one model call, while the same three concurrent
requests on the empty GPT cache trigger three. -/
theorem C5_amended_coalescing_witness :
    ([1, 2, 3] : List ℕ) ≠ [] ∧
    ((fastRun ([1, 2, 3].map FastEvent.start ++ [FastEvent.complete 7])).modelCalls = 1 ∧
     (∀ p ∈ (fastRun ([1, 2, 3].map FastEvent.start ++
          [FastEvent.complete 7])).delivered, p.2 = 7) ∧
     (∀ r ∈ ([1, 2, 3] : List ℕ),
       (r, 7) ∈ (fastRun ([1, 2, 3].map FastEvent.start ++
          [FastEvent.complete 7])).delivered) ∧
     (gptRun ([1, 2, 3].map GptEvent.start)).modelCalls = ([1, 2, 3] : List ℕ).length) :=
  ⟨by decide, C5_amended_coalescing [1, 2, 3] 7 (by decide)⟩

end LethalMarkets
